import Mathlib

/-!
Verification development for the POS serial-to-cloud uploader
(711withterminaloutput_FINAL_FIXED.py).

Modelling conventions:
* Python floats and Decimal values are modelled as exact rationals.  A
  float literal appearing in the source or in input data stands for the
  rational it denotes; Decimal(x).quantize(Decimal("0.01"), ROUND_HALF_UP)
  is `roundHalfUp2`, and the builtin `round(x, 2)` (round half to even)
  is `pyRound2`.
* Python dicts are association lists in insertion order; JSON values are
  the inductive `JVal`.
* The wall clock (`datetime.now`) is an explicit `String` argument where
  the source reads it; the timezone conversion `to_utc` (which can also
  read the clock) is an explicit function argument `conv`.
* Exceptions are `Except PyErr`; an uncaught exception in a worker loop
  is an `Except.error` result of the corresponding step function.
-/

/-- Python exception classes that the modelled code can raise. -/
inductive PyErr where
  | typeError
  | valueError
  | jsonError
  deriving Repr, DecidableEq, Inhabited

/-! ### Half-up money rounding (decimal.ROUND_HALF_UP at 2 places) -/

/-- Number of cents of `x` under ROUND_HALF_UP (ties away from zero),
    as used by Decimal.quantize(Decimal("0.01"), ROUND_HALF_UP). -/
def centsHU (x : ℚ) : ℤ :=
  if 0 ≤ x then ⌊x * 100 + 1 / 2⌋ else -⌊(-x) * 100 + 1 / 2⌋

/-- `Decimal(x).quantize(Decimal("0.01"), ROUND_HALF_UP)` on the rational
    standing for the float `x`. -/
def roundHalfUp2 (x : ℚ) : ℚ := (centsHU x : ℚ) / 100

/-- Python builtin `round(x, 2)`: round half to even at 2 decimal places
    (on the rational standing for the float; exact-tie cases are where it
    differs from half-up). -/
def pyRound2 (x : ℚ) : ℚ :=
  let f : ℤ := ⌊x * 100⌋
  let r : ℚ := x * 100 - (f : ℚ)
  (if r < 1 / 2 then (f : ℚ)
   else if 1 / 2 < r then ((f + 1 : ℤ) : ℚ)
   else if f % 2 = 0 then (f : ℚ) else ((f + 1 : ℤ) : ℚ)) / 100

/-- Truncation toward zero, as Python `int()` applied to a float. -/
def truncQ (q : ℚ) : ℤ := if 0 ≤ q then ⌊q⌋ else ⌈q⌉

/-! ### String scanning helpers -/

/-- `pat` occurs as a contiguous substring of `s` (Python `pat in s`),
    on character lists. -/
def isSubAux (pat : List Char) : List Char → Bool
  | [] => pat.isEmpty
  | c :: rest => pat.isPrefixOf (c :: rest) || isSubAux pat rest

/-- Python substring containment `pat in s`. -/
def strContains (s pat : String) : Bool := isSubAux pat.data s.data

/-- Characters Python `str.strip` and `float`/`int` accept as surrounding
    whitespace (the common ASCII ones). -/
def isPyWs (c : Char) : Bool := c = ' ' || c = '\t' || c = '\n' || c = '\r'

/-- Python `str.upper` on one character (ASCII; non-ASCII case folding is
    not modelled). -/
def toUpperChar (c : Char) : Char :=
  if 97 ≤ c.toNat ∧ c.toNat ≤ 122 then Char.ofNat (c.toNat - 32) else c

/-- Python `str.lower` on one character (ASCII). -/
def toLowerChar (c : Char) : Char :=
  if 65 ≤ c.toNat ∧ c.toNat ≤ 90 then Char.ofNat (c.toNat + 32) else c

/-- Python `s.upper()`. -/
def pyUpper (s : String) : String := ⟨s.data.map toUpperChar⟩

/-- Python `s.lower()`. -/
def pyLower (s : String) : String := ⟨s.data.map toLowerChar⟩

/-- Replacement loop of `str.replace` (all occurrences, left to right);
    the fuel is the input length, enough for every step. -/
def pyReplaceAux (pat rep : List Char) : ℕ → List Char → List Char
  | 0, l => l
  | _ + 1, [] => []
  | fuel + 1, c :: rest =>
    if pat.isPrefixOf (c :: rest) ∧ pat ≠ [] then
      rep ++ pyReplaceAux pat rep fuel ((c :: rest).drop pat.length)
    else c :: pyReplaceAux pat rep fuel rest

/-- Python `s.replace(pat, rep)`: every occurrence replaced. -/
def pyReplace (s pat rep : String) : String :=
  ⟨pyReplaceAux pat.data rep.data s.data.length s.data⟩

/-- Python `s.startswith(pre)`. -/
def pyStartsWith (s pre : String) : Bool := pre.data.isPrefixOf s.data

/-- Python `s[:n]` on an ASCII string. -/
def pyTake (s : String) (n : ℕ) : String := ⟨s.data.take n⟩

/-- Python `s.strip()`. -/
def pyStrip (s : String) : String :=
  ⟨(s.data.dropWhile isPyWs).reverse.dropWhile isPyWs |>.reverse⟩

/-- Digits of a numeral, most significant first, to a natural number
    (Python `int` on an all-digit string). -/
def digitsToNat (l : List Char) : ℕ :=
  l.foldl (fun a c => a * 10 + (c.toNat - 48)) 0

/-- Python `int(s)` on a string: optional surrounding whitespace, optional
    sign, then a nonempty digit run.  (Underscore separators and non-ASCII
    digits are not modelled.)  `none` models a raised ValueError. -/
def parseIntPy (s : String) : Option ℤ :=
  let cs := (s.data.dropWhile isPyWs).reverse.dropWhile isPyWs |>.reverse
  let (sign, ds) : ℤ × List Char :=
    match cs with
    | '-' :: rest => (-1, rest)
    | '+' :: rest => (1, rest)
    | rest => (1, rest)
  if ds ≠ [] ∧ ds.all Char.isDigit then some (sign * (digitsToNat ds : ℤ))
  else none

/-- Value of a decimal-fraction digit list read after the point. -/
def fracVal (l : List Char) : ℚ :=
  (digitsToNat l : ℚ) / ((10 : ℚ) ^ l.length)

/-- Python `float(s)` on a string: optional whitespace and sign, a decimal
    numeral with optional fractional part and optional exponent.  At least
    one digit must be present.  (inf/nan and underscore separators are not
    modelled; no claim depends on them.)  `none` models a raised
    ValueError. -/
def parseFloatPy (s : String) : Option ℚ :=
  let cs := (s.data.dropWhile isPyWs).reverse.dropWhile isPyWs |>.reverse
  let (sign, cs1) : ℚ × List Char :=
    match cs with
    | '-' :: rest => (-1, rest)
    | '+' :: rest => (1, rest)
    | rest => (1, rest)
  let intPart := cs1.takeWhile Char.isDigit
  let cs2 := cs1.drop intPart.length
  let (fracPart, cs3) : List Char × List Char :=
    match cs2 with
    | '.' :: rest => (rest.takeWhile Char.isDigit, rest.drop (rest.takeWhile Char.isDigit).length)
    | rest => ([], rest)
  if intPart.isEmpty ∧ fracPart.isEmpty then none
  else
    let mant : ℚ := sign * ((digitsToNat intPart : ℚ) + fracVal fracPart)
    match cs3 with
    | [] => some mant
    | e :: rest =>
      if e = 'e' ∨ e = 'E' then
        let (esign, eds) : ℤ × List Char :=
          match rest with
          | '-' :: r => (-1, r)
          | '+' :: r => (1, r)
          | r => (1, r)
        if eds ≠ [] ∧ eds.all Char.isDigit then
          some (mant * (10 : ℚ) ^ (esign * (digitsToNat eds : ℤ)))
        else none
      else none

/-! ### JSON values (results of json.loads) and Python dict operations -/

/-- A parsed JSON value.  Python `None`/`True`/numbers/strings/lists/dicts
    are `null`/`bool`/`num`/`str`/`arr`/`obj`; dicts keep insertion order. -/
inductive JVal where
  | null
  | bool (b : Bool)
  | num (q : ℚ)
  | str (s : String)
  | arr (xs : List JVal)
  | obj (kvs : List (String × JVal))
  deriving Inhabited

/-- Python truthiness of a JSON-derived value. -/
def truthy : JVal → Bool
  | .null => false
  | .bool b => b
  | .num q => q ≠ 0
  | .str s => s ≠ ""
  | .arr xs => !xs.isEmpty
  | .obj kvs => !kvs.isEmpty

/-- `d.get(k)` on a dict: the value at the first (unique) matching key. -/
def jget (kvs : List (String × JVal)) (k : String) : Option JVal :=
  (kvs.find? (fun kv => kv.1 == k)).map Prod.snd

/-- `d.get(k, default)`.  A present JSON `null` yields `null` (Python
    returns the stored `None`), only an absent key yields the default. -/
def getJD (kvs : List (String × JVal)) (k : String) (d : JVal) : JVal :=
  (jget kvs k).getD d

/-- `d.get(k) is not None`: the value when present and not `null`. -/
def getNN (kvs : List (String × JVal)) (k : String) : Option JVal :=
  match jget kvs k with
  | some .null => none
  | o => o

/-- Hexadecimal digit value, for \u escapes. -/
def hexVal (c : Char) : Option ℕ :=
  if c.isDigit then some (c.toNat - 48)
  else if 'a' ≤ c ∧ c ≤ 'f' then some (c.toNat - 87)
  else if 'A' ≤ c ∧ c ≤ 'F' then some (c.toNat - 55)
  else none

/-- Body of a JSON string literal (after the opening quote): returns the
    decoded string and the characters after the closing quote. -/
def jstrAux : ℕ → List Char → Option (String × List Char)
  | 0, _ => none
  | _, [] => none
  | fuel + 1, c :: rest =>
    if c = '\"' then some ("", rest)
    else if c = '\\' then
      match rest with
      | [] => none
      | e :: rest2 =>
        if e = 'u' then
          match rest2 with
          | h1 :: h2 :: h3 :: h4 :: rest3 =>
            match hexVal h1, hexVal h2, hexVal h3, hexVal h4 with
            | some a, some b, some c3, some d =>
              (jstrAux fuel rest3).map
                (fun p => (⟨Char.ofNat (((a * 16 + b) * 16 + c3) * 16 + d) :: p.1.data⟩, p.2))
            | _, _, _, _ => none
          | _ => none
        else
          let ec : Option Char :=
            if e = '\"' then some '\"'
            else if e = '\\' then some '\\'
            else if e = '/' then some '/'
            else if e = 'n' then some '\n'
            else if e = 't' then some '\t'
            else if e = 'r' then some '\r'
            else if e = 'b' then some (Char.ofNat 8)
            else if e = 'f' then some (Char.ofNat 12)
            else none
          match ec with
          | some ch => (jstrAux fuel rest2).map (fun p => (⟨ch :: p.1.data⟩, p.2))
          | none => none
    else (jstrAux fuel rest).map (fun p => (⟨c :: p.1.data⟩, p.2))

/-- Characters that may start or continue a JSON number token. -/
def isNumChar (c : Char) : Bool :=
  c.isDigit || c = '-' || c = '+' || c = '.' || c = 'e' || c = 'E'

mutual

/-- One JSON value, fuelled (fuel bounds the recursion depth and element
    count; `jparse` supplies enough).  Number tokens are read with the
    numeric grammar of `parseFloatPy`, a harmless superset of JSON
    numbers.  Returns the value and the remaining characters. -/
def parseJAux : ℕ → List Char → Option (JVal × List Char)
  | 0, _ => none
  | fuel + 1, cs =>
    match cs.dropWhile isPyWs with
    | [] => none
    | c :: rest =>
      if c = 'n' then
        if "ull".data.isPrefixOf rest then some (.null, rest.drop 3) else none
      else if c = 't' then
        if "rue".data.isPrefixOf rest then some (.bool true, rest.drop 3) else none
      else if c = 'f' then
        if "alse".data.isPrefixOf rest then some (.bool false, rest.drop 4) else none
      else if c = '\"' then
        (jstrAux (rest.length + 1) rest).map (fun p => (.str p.1, p.2))
      else if c = '[' then
        match rest.dropWhile isPyWs with
        | ']' :: r2 => some (.arr [], r2)
        | _ => (parseElems fuel rest).map (fun p => (.arr p.1, p.2))
      else if c = '{' then
        match rest.dropWhile isPyWs with
        | '}' :: r2 => some (.obj [], r2)
        | _ => (parseMembers fuel rest).map (fun p => (.obj p.1, p.2))
      else
        let numCs := (c :: rest).takeWhile isNumChar
        if numCs.isEmpty then none
        else (parseFloatPy ⟨numCs⟩).map (fun q => (.num q, (c :: rest).drop numCs.length))

/-- Comma-separated array elements up to the closing bracket. -/
def parseElems : ℕ → List Char → Option (List JVal × List Char)
  | 0, _ => none
  | fuel + 1, cs => do
    let (v, r) ← parseJAux fuel cs
    match r.dropWhile isPyWs with
    | ']' :: r2 => some ([v], r2)
    | ',' :: r2 => (parseElems fuel r2).map (fun p => (v :: p.1, p.2))
    | _ => none

/-- Comma-separated object members up to the closing brace. -/
def parseMembers : ℕ → List Char → Option (List (String × JVal) × List Char)
  | 0, _ => none
  | fuel + 1, cs =>
    match cs.dropWhile isPyWs with
    | '\"' :: r => do
      let (k, r1) ← jstrAux (r.length + 1) r
      match r1.dropWhile isPyWs with
      | ':' :: r2 => do
        let (v, r3) ← parseJAux fuel r2
        match r3.dropWhile isPyWs with
        | '}' :: r4 => some ([(k, v)], r4)
        | ',' :: r4 => (parseMembers fuel r4).map (fun p => ((k, v) :: p.1, p.2))
        | _ => none
      | _ => none
    | _ => none

end

/-- `json.loads` on a string: one JSON value with only trailing
    whitespace allowed.  `Except.error` models a raised
    json.JSONDecodeError. -/
def jparse (s : String) : Except PyErr JVal :=
  match parseJAux (2 * s.data.length + 4) s.data with
  | some (v, r) => if (r.dropWhile isPyWs).isEmpty then .ok v else .error .jsonError
  | none => .error .jsonError

/-- `float(v)` on a JSON-derived value: numbers and booleans convert,
    strings are parsed, anything else raises. -/
def pyFloat : JVal → Except PyErr ℚ
  | .num q => .ok q
  | .bool b => .ok (if b then 1 else 0)
  | .str s =>
    match parseFloatPy s with
    | some q => .ok q
    | none => .error .valueError
  | _ => .error .typeError

/-- `int(v)` on a JSON-derived value: floats truncate toward zero,
    strings must be integer numerals, anything else raises. -/
def pyInt : JVal → Except PyErr ℤ
  | .num q => .ok (truncQ q)
  | .bool b => .ok (if b then 1 else 0)
  | .str s =>
    match parseIntPy s with
    | some n => .ok n
    | none => .error .valueError
  | _ => .error .typeError

/-- `str(v)`.  Strings, numbers, booleans and None render as in Python
    (integer-valued numbers as integers); container reprs are abbreviated,
    no modelled behaviour depends on them. -/
def pyStr : JVal → String
  | .str s => s
  | .num q => if q.den = 1 then toString q.num else toString q
  | .bool b => if b then "True" else "False"
  | .null => "None"
  | .arr _ => "[...]"
  | .obj _ => "\x7b...\x7d"

/-- A str method call (.upper at lines 195 and 408, .lower at line 553)
    on a verbatim JSON-derived value: only a string has the method;
    anything else raises AttributeError (modelled as typeError). -/
def jStr : JVal → Except PyErr String
  | .str s => .ok s
  | _ => .error .typeError

/-! ### Transaction Assembler (parser_worker), lines 249-355 -/

/-- A cart-change line event as appended by parser_worker: name stored
    verbatim, price/quantity parsed, event "void" or "add". -/
structure PEntry where
  name : JVal
  price : ℚ
  quantity : ℤ
  event : String
  deriving Inhabited

/-- A payment as appended by parser_worker: parsed amount and the verbatim
    description field (key tenderType in the source dict). -/
structure PPay where
  amount : ℚ
  tenderType : JVal
  deriving Inhabited

/-- The per-port AssemblyBuffer allocated on StartTransaction. -/
structure Buf where
  meta : Option JVal
  items : List PEntry
  voids : List PEntry
  payments : List PPay
  summary_list : List JVal
  summary_map : List (String × ℚ)
  deriving Inhabited

/-- The fresh buffer allocated at a StartTransaction record. -/
def freshBuf : Buf := ⟨none, [], [], [], [], []⟩

/-- The transaction dict synthesized at an EndTransaction record. -/
structure PTx where
  guid : String
  ts_local : JVal
  ts_utc : String
  store : String
  terminal : String
  seq : String
  type : JVal
  items : List PEntry
  voids : List PEntry
  payments : List PPay
  summary_list : List JVal
  summary_map : List (String × ℚ)
  employee_id : JVal
  employee_name : JVal
  location_desc : String
  deriving Inhabited

/-- Python `v == "s"` for an optionally-present JSON value: true exactly
    for the equal string. -/
def isStrVal (o : Option JVal) (s : String) : Bool :=
  match o with
  | some (.str t) => t == s
  | _ => false

/-- generate_guid: uuid5 of the namespace string
    store-terminal-seq-ts_utc.  The hash itself is not modelled; the
    tagged namespace string stands for the uuid (deterministic in the
    same four fields, as in the source). -/
def generate_guid (store term seq ts_utc : String) : String :=
  "uuid5:" ++ store ++ "-" ++ term ++ "-" ++ seq ++ "-" ++ ts_utc

/-- One cart-change entry (lines 280-291): eventType routes to
    void/add, price defaults to 0.0 and quantity to 1 when absent or
    null, itemName is stored verbatim with default "".  Non-dict
    elements raise (c.get on a non-dict). -/
def decodeEntry (c : JVal) : Except PyErr PEntry :=
  match c with
  | .obj ck => do
    let pr ← match getNN ck "price" with
      | some v => pyFloat v
      | none => .ok 0
    let qt ← match getNN ck "quantity" with
      | some v => pyInt v
      | none => .ok 1
    let et := jget ck "eventType"
    .ok { name := getJD ck "itemName" (.str ""),
          price := pr, quantity := qt,
          event := if isStrVal et "voidLineItem" then "void" else "add" }
  | _ => .error .typeError

/-- String-encoded sub-records go through json.loads; a single dict is
    wrapped into a one-element list; iterating anything that is not a
    list (or an empty string) raises.  Shared by the cartChangeTrail,
    paymentSummary and transactionSummary branches. -/
def normalizeTrail (v : JVal) : Except PyErr (List JVal) := do
  let t ← match v with
    | .str s => jparse s
    | _ => .ok v
  match t with
  | .obj kvs => .ok [.obj kvs]
  | .arr xs => .ok xs
  | .str s => if s = "" then .ok [] else .error .typeError
  | _ => .error .typeError

/-- The cart-change loop body over the normalized list, in input order. -/
def decodeEntries : List JVal → Except PyErr (List PEntry)
  | [] => .ok []
  | c :: rest => do
    let e ← decodeEntry c
    let es ← decodeEntries rest
    .ok (e :: es)

/-- cartChangeTrail decoding (lines 275-291): normalized list of entries
    in input order. -/
def decodeCart (v : JVal) : Except PyErr (List PEntry) := do
  let l ← normalizeTrail v
  decodeEntries l

/-- One paymentSummary element (lines 300-302): amount is
    float(p.get("details","0").replace("$","")) — a non-string details
    field raises (str.replace on a non-string); description is stored
    verbatim. -/
def decodePayEntry (p : JVal) : Except PyErr PPay :=
  match p with
  | .obj pk => do
    let amt ← match getJD pk "details" (.str "0") with
      | .str s =>
        (match parseFloatPy (pyReplace s "$" "") with
         | some q => Except.ok q
         | none => Except.error PyErr.valueError)
      | _ => .error .typeError
    .ok (PPay.mk amt (getJD pk "description" (.str "")))
  | _ => .error .typeError

/-- The payment loop over the normalized list, in input order. -/
def decodePayEntries : List JVal → Except PyErr (List PPay)
  | [] => .ok []
  | p :: rest => do
    let e ← decodePayEntry p
    let es ← decodePayEntries rest
    .ok (e :: es)

/-- paymentSummary decoding (lines 295-302). -/
def decodePays (v : JVal) : Except PyErr (List PPay) := do
  let l ← normalizeTrail v
  decodePayEntries l

/-- `smap[key] = val` on an insertion-ordered dict: overwrite in place or
    append. -/
def smapInsert (m : List (String × ℚ)) (k : String) (v : ℚ) :
    List (String × ℚ) :=
  if m.any (fun kv => kv.1 == k) then
    m.map (fun kv => if kv.1 == k then (k, v) else kv)
  else m ++ [(k, v)]

/-- transactionSummary decoding (lines 306-321): keeps the raw list and
    derives the summary map; keys upper-cased and trimmed, values
    stripped of currency symbols and thousands separators, unparsable
    values mapping to 0.  Only the float() call is inside try/except:
    a non-string description or details field raises. -/
def summFold : List JVal → List (String × ℚ) →
    Except PyErr (List (String × ℚ))
  | [], acc => .ok acc
  | e :: rest, acc =>
    match e with
    | .obj ek => do
      let key ← match getJD ek "description" (.str "") with
        | .str s => Except.ok (pyStrip (pyUpper s))
        | _ => Except.error PyErr.typeError
      let valStr ← match getJD ek "details" (.str "") with
        | .str s => Except.ok (pyStrip (pyReplace (pyReplace s "$" "") "," ""))
        | _ => Except.error PyErr.typeError
      let val := (parseFloatPy valStr).getD 0
      summFold rest (smapInsert acc key val)
    | _ => .error .typeError

/-- transactionSummary decoding (lines 306-321), see `summFold`. -/
def decodeSumm (v : JVal) :
    Except PyErr (List JVal × List (String × ℚ)) := do
  let l ← normalizeTrail v
  let sm ← summFold l []
  .ok (l, sm)

/-- Which branch of parser_worker handles a record.  Branches are tried
    in the source order: StartTransaction, missing buffer aside, truthy
    metaData, non-null cartChangeTrail, non-null paymentSummary, non-null
    transactionSummary, EndTransaction, otherwise consumed without
    effect.  A non-dict record raises at rec.get. -/
inductive RecClass where
  | notObj
  | start
  | meta (v : JVal)
  | cart (v : JVal)
  | pay (v : JVal)
  | summ (v : JVal)
  | endTx
  | other
  deriving Inhabited

/-- Branch selection for one record, in the priority order of the
    source. -/
def classify (r : JVal) : RecClass :=
  match r with
  | .obj kvs =>
    if isStrVal (jget kvs "CMD") "StartTransaction" then .start
    else if truthy (getJD kvs "metaData" .null) then
      .meta (getJD kvs "metaData" .null)
    else
      match getNN kvs "cartChangeTrail" with
      | some v => .cart v
      | none =>
        match getNN kvs "paymentSummary" with
        | some v => .pay v
        | none =>
          match getNN kvs "transactionSummary" with
          | some v => .summ v
          | none =>
            if isStrVal (jget kvs "CMD") "EndTransaction" then .endTx
            else .other
  | _ => .notObj

/-- The expression `buf["meta"] or {}` of line 326: a falsy or absent meta
    value is replaced by an empty dict. -/
def metaOr : Option JVal → JVal
  | some v => if truthy v then v else .obj []
  | none => .obj []

/-- EndTransaction synthesis (lines 325-353).  `conv` is to_utc (total in
    the source: every failure path returns the current UTC instant).  The
    store id is forced to "1001" and the employee identity is the
    operator field on both id and name; a truthy non-dict stored meta makes
    the field reads raise. -/
def mkEndTx (conv : JVal → String) (buf : Buf) : Except PyErr PTx :=
  match metaOr buf.meta with
  | .obj mk => do
    let tsLoc := getJD mk "timeStamp" (.str "")
    let ts_utc := if truthy tsLoc then conv tsLoc else ""
    let seq := pyStr (getJD mk "transactionSeqNumber" (.str ""))
    let store := "1001"
    let term := pyStr (getJD mk "terminalNumber" (.str ""))
    let op := getJD mk "operator" (.str "")
    .ok { guid := generate_guid store term seq ts_utc,
          ts_local := tsLoc, ts_utc := ts_utc, store := store,
          terminal := term, seq := seq,
          type := getJD mk "transactionType" (.str ""),
          items := buf.items, voids := buf.voids,
          payments := buf.payments,
          summary_list := buf.summary_list,
          summary_map := buf.summary_map,
          employee_id := op, employee_name := op,
          location_desc := "Store " ++ store }
  | _ => .error .typeError

/-- One parser_worker iteration for one port buffer: the new buffer and
    the emitted transaction, or the uncaught exception. -/
def pstep1 (conv : JVal → String) (b : Option Buf) (r : JVal) :
    Except PyErr (Option Buf × Option PTx) :=
  match classify r, b with
  | .notObj, _ => .error .typeError
  | .start, _ => .ok (some freshBuf, none)
  | _, none => .ok (none, none)
  | .meta v, some buf => .ok (some { buf with meta := some v }, none)
  | .cart v, some buf =>
    (decodeCart v).map (fun es =>
      (some { buf with
              items := buf.items ++ es.filter (fun e => e.event ≠ "void"),
              voids := buf.voids ++ es.filter (fun e => e.event = "void") },
       none))
  | .pay v, some buf =>
    (decodePays v).map (fun ps =>
      (some { buf with payments := buf.payments ++ ps }, none))
  | .summ v, some buf =>
    (decodeSumm v).map (fun p =>
      (some { buf with summary_list := p.1, summary_map := p.2 }, none))
  | .endTx, some buf => (mkEndTx conv buf).map (fun tx => (none, some tx))
  | .other, some buf => .ok (some buf, none)

/-- Pointwise update of the per-port buffer table. -/
def bupdate (f : String → Option Buf) (p : String) (v : Option Buf) :
    String → Option Buf :=
  fun q => if q = p then v else f q

/-- One parser_worker iteration on the shared buffer table: only the
    record port entry is read and written. -/
def pstep (conv : JVal → String) (bufs : String → Option Buf)
    (port : String) (r : JVal) :
    Except PyErr ((String → Option Buf) × Option PTx) :=
  (pstep1 conv (bufs port) r).map (fun p => (bupdate bufs port p.1, p.2))

/-- The parser_worker loop over a queue of (port, record) pairs: final
    buffer table, emitted transactions tagged with their port in emission
    order, and the uncaught exception if one terminated the loop (records
    after it are not processed). -/
def prun (conv : JVal → String) :
    (String → Option Buf) → List (String × JVal) →
    ((String → Option Buf) × List (String × PTx) × Option PyErr)
  | bufs, [] => (bufs, [], none)
  | bufs, (port, r) :: rest =>
    match pstep conv bufs port r with
    | .error e => (bufs, [], some e)
    | .ok (bufs2, t) =>
      let res := prun conv bufs2 rest
      (res.1, (match t with | some tx => [(port, tx)] | none => []) ++ res.2.1,
       res.2.2)

/-- The parser_worker loop restricted to one port buffer. -/
def prun1 (conv : JVal → String) :
    Option Buf → List JVal → (Option Buf × List PTx × Option PyErr)
  | b, [] => (b, [], none)
  | b, r :: rest =>
    match pstep1 conv b r with
    | .error e => (b, [], some e)
    | .ok (b2, t) =>
      let res := prun1 conv b2 rest
      (res.1, (match t with | some tx => [tx] | none => []) ++ res.2.1,
       res.2.2)

/-- The records of a given port, in arrival order. -/
def portRecs (p : String) (qs : List (String × JVal)) : List JVal :=
  (qs.filter (fun q => q.1 = p)).map Prod.snd

/-- The transactions a run emitted for a given port, in emission order. -/
def txsAt (p : String) (txs : List (String × PTx)) : List PTx :=
  (txs.filter (fun q => q.1 = p)).map Prod.snd

/-! ### Transformation Engine (payload builders), lines 359-537

The builders consume the transaction dict.  They are modelled over a
well-typed view `Tx` of that dict (names, tender descriptions and the
declared type as strings), which is what every field access in the
builders assumes; the parser-level `PTx` above keeps the verbatim
values. -/

/-- A line event of a transaction as the builders read it. -/
structure Item where
  name : String
  price : ℚ
  quantity : ℤ
  event : String
  deriving Repr, DecidableEq, Inhabited

/-- A payment of a transaction as the builders read it. -/
structure Pay where
  amount : ℚ
  tenderType : String
  deriving Repr, DecidableEq, Inhabited

/-- The transaction as the dispatcher and the payload builders consume
    it.  The builders call str methods on item names, payment
    descriptions and the declared type (lines 408, 195, 553), so those
    fields are typed String here: Tx is the domain on which the calls
    succeed, while PTx keeps the verbatim parser output (pclassify
    models the line 553 call on it).  The raw transactionSummary list,
    unread by the builders, is omitted. -/
structure Tx where
  guid : String
  ts_local : String
  ts_utc : String
  store : String
  terminal : String
  seq : String
  type : String
  items : List Item
  voids : List Item
  payments : List Pay
  summary_map : List (String × ℚ)
  employee_id : String
  employee_name : String
  location_desc : String
  deriving Repr, DecidableEq, Inhabited

/-- map_tender (lines 194-200): case-insensitive containment rules in
    fixed precedence. -/
def map_tender (desc : String) : String :=
  let d := pyUpper desc
  if strContains d "CASH" then "Cash"
  else if strContains d "VISA" || strContains d "MASTERCARD" ||
          strContains d "AMEX" || strContains d "DISCOVER" then "CreditCard"
  else if strContains d "DEBIT" then "DebitCard"
  else if pyStartsWith d "ACCT#" || pyStartsWith d "ACCOUNT" then "AccountPayment"
  else "Other"

/-- `sm.get(key, default)` on the summary map. -/
def smGetD (m : List (String × ℚ)) (k : String) (d : ℚ) : ℚ :=
  ((m.find? (fun kv => kv.1 == k)).map Prod.snd).getD d

/-- Subtotal read from the summary map (line 388). -/
def subtotalOf (tx : Tx) : ℚ := smGetD tx.summary_map "SUBTOTAL" 0

/-- First summary entry whose key starts with TAX, else 0 (line 389). -/
def taxAmtOf (tx : Tx) : ℚ :=
  ((tx.summary_map.find? (fun kv => pyStartsWith kv.1 "TAX")).map Prod.snd).getD 0

/-- TOTAL DUE from the summary map, defaulting to subtotal plus tax
    (line 390). -/
def totalDueOf (tx : Tx) : ℚ :=
  smGetD tx.summary_map "TOTAL DUE" (subtotalOf tx + taxAmtOf tx)

/-- Unrounded sum of the positive payment amounts (line 394). -/
def paidSum (tx : Tx) : ℚ :=
  (tx.payments.filter (fun p => 0 < p.amount)).foldl
    (fun a p => a + p.amount) 0

/-- The change of lines 395-396: the rounded payment sum minus the
    rounded total due, quantized once more (a no-op on whole cents). -/
def computeChange (tx : Tx) : ℚ :=
  roundHalfUp2 (roundHalfUp2 (paidSum tx) - roundHalfUp2 (totalDueOf tx))

/-- `tx["seq"] or 0` fed to int(): empty string gives 0, otherwise the
    string must be an integer numeral. -/
def pyIntOr0 (s : String) : Except PyErr ℤ :=
  if s = "" then .ok 0
  else match parseIntPy s with
    | some n => .ok n
    | none => .error .valueError

/-- One emitted OrderItem of the Transaction/Refund payloads, flattened:
    the nested MenuProduct/MenuItem/SKU blocks of the source repeat the
    name and product id (iD is the product id suffixed with _MI), so the
    flat record carries the full information. -/
structure OrderItemE where
  state : String
  stateTimestamp : String
  itemType : String
  category : String
  pid : String
  name : String
  itemPrice : ℚ
  quantity : ℤ
  deriving Repr, DecidableEq, Inhabited

/-- One Tax block entry. -/
structure TaxE where
  amount : ℚ
  description : String
  deriving Repr, DecidableEq, Inhabited

/-- One Discount block entry. -/
structure DiscountE where
  value : ℚ
  description : String
  category : String
  deriving Repr, DecidableEq, Inhabited

/-- One Payment block entry. -/
structure PayE where
  timestamp : String
  status : String
  amount : ℚ
  change : ℚ
  tenderType : String
  deriving Repr, DecidableEq, Inhabited

/-- The item/promotion loop of build_txn_payload (lines 398-437): every
    entry consumes a product-id index; a non-void entry whose upper-cased
    name contains PROMO or DISCOUNT folds into the Discount list with
    value round(abs(price*quantity), 2) (the Python builtin round);
    every other entry becomes an OrderItem with half-up-rounded unit
    price. -/
def buildItemsAux (seq ts : String) : List Item → ℕ →
    List OrderItemE × List DiscountE
  | [], _ => ([], [])
  | itm :: rest, idx =>
    let isVoid := itm.event == "void"
    let pid := "PID" ++ seq ++ "_" ++ toString idx
    let isPromo := strContains (pyUpper itm.name) "PROMO" ||
                   strContains (pyUpper itm.name) "DISCOUNT"
    let res := buildItemsAux seq ts rest (idx + 1)
    if isPromo && !isVoid then
      (res.1,
       ⟨pyRound2 |itm.price * (itm.quantity : ℚ)|, itm.name, "Promotion"⟩ :: res.2)
    else
      (⟨if isVoid then "Voided" else "Added", ts,
        if isVoid then "Voided" else "Sale", "General", pid, itm.name,
        roundHalfUp2 itm.price, itm.quantity⟩ :: res.1,
       res.2)

/-- The payment loop of build_txn_payload (lines 439-451): rounded-zero
    amounts are dropped, the change is attached to the first kept payment
    only, status Accepted for non-negative amounts. -/
def buildPays (ts : String) (change : ℚ) : List Pay → ℕ → List PayE
  | [], _ => []
  | p :: rest, pi =>
    let amt := roundHalfUp2 p.amount
    if amt = 0 then buildPays ts change rest pi
    else
      ⟨ts, if 0 ≤ amt then "Accepted" else "Denied", amt,
       if pi = 0 then change else 0, map_tender p.tenderType⟩ ::
      buildPays ts change rest (pi + 1)

/-- Whether every entry of items and voids together is a void
    (line 455). -/
def allEntriesVoid (tx : Tx) : Bool :=
  (tx.items ++ tx.voids).all (fun e => e.event == "void")

/-- The sale/void Transaction payload, flattened from the nested Event /
    EventTypeOrder / Order schema of lines 460-485. -/
structure TxnPayload where
  guid : String
  transactionDateTimeStamp : String
  transactionType : String
  businessDate : String
  locationID : String
  locationDesc : String
  deviceID : String
  deviceDesc : String
  employeeID : String
  employeeName : String
  orderID : String
  orderNumber : ℤ
  orderTime : String
  orderState : String
  orderItem : List OrderItemE
  totalItemPrice : ℚ
  tax : List TaxE
  discount : List DiscountE
  orderItemCount : ℕ
  payment : List PayE
  deriving Repr, DecidableEq, Inhabited

/-- build_txn_payload (lines 386-485).  `current_ts` is the
    datetime.now(timezone.utc) string read at line 458; it feeds the
    TransactionDateTimeStamp, BusinessDate and OrderTime fields.  The
    int() on the sequence number can raise. -/
def build_txn_payload (tx : Tx) (current_ts : String) :
    Except PyErr TxnPayload :=
  let res := buildItemsAux tx.seq tx.ts_utc (tx.items ++ tx.voids) 1
  let payments := buildPays tx.ts_utc (computeChange tx) tx.payments 0
  let tax_d := roundHalfUp2 (taxAmtOf tx)
  let tax_arr : List TaxE := if 0 < tax_d then [⟨tax_d, "Sales Tax"⟩] else []
  let has_voids := !tx.voids.isEmpty
  let all_voided := has_voids && allEntriesVoid tx
  (pyIntOr0 tx.seq).map fun orderNum =>
  { guid := tx.guid,
        transactionDateTimeStamp := current_ts,
        transactionType := if has_voids then "Update" else "New",
        businessDate := pyReplace (pyTake current_ts 10) "-" "",
        locationID := tx.store, locationDesc := tx.location_desc,
        deviceID := tx.terminal,
        deviceDesc := "POS Terminal " ++ tx.terminal,
        employeeID := tx.employee_id, employeeName := tx.employee_name,
        orderID := tx.guid, orderNumber := orderNum,
        orderTime := current_ts,
        orderState := if all_voided then "Voided" else "Closed",
        orderItem := res.1,
        totalItemPrice := roundHalfUp2 (subtotalOf tx),
        tax := tax_arr, discount := res.2,
        orderItemCount := res.1.length,
        payment := payments }

/-- The CashOperation payload (lines 359-383), flattened. -/
structure CashOpPayload where
  guid : String
  transactionDateTimeStamp : String
  transactionType : String
  businessDate : String
  locationID : String
  locationDesc : String
  deviceID : String
  deviceDesc : String
  employeeID : String
  employeeName : String
  drawerEventGUID : String
  drawerEventNumber : ℤ
  drawerOperationType : String
  drawerOpenTime : String
  cashAmounts : List ℚ
  deriving Repr, DecidableEq, Inhabited

/-- build_cash_op_payload (lines 359-383): a zero-amount PaidOut drawer
    event stamped with the transaction UTC time. -/
def build_cash_op_payload (tx : Tx) : Except PyErr CashOpPayload :=
  let ts := tx.ts_utc
  let biz := pyReplace (pyTake ts 10) "-" ""
  (pyIntOr0 tx.seq).map fun seq =>
  { guid := tx.guid, transactionDateTimeStamp := ts,
        transactionType := "New", businessDate := biz,
        locationID := tx.store, locationDesc := tx.location_desc,
        deviceID := tx.terminal,
        deviceDesc := "POS Terminal " ++ tx.terminal,
        employeeID := tx.employee_id, employeeName := tx.employee_name,
        drawerEventGUID := tx.guid, drawerEventNumber := seq,
        drawerOperationType := "PaidOut", drawerOpenTime := ts,
        cashAmounts := [0] }

/-- The Refund payload (lines 489-537), flattened. -/
structure RefundPayload where
  guid : String
  transactionDateTimeStamp : String
  transactionType : String
  businessDate : String
  locationID : String
  locationDesc : String
  deviceID : String
  deviceDesc : String
  employeeID : String
  employeeName : String
  refundTotal : ℚ
  orderID : String
  orderNumber : ℤ
  orderTime : String
  orderState : String
  orderItem : List OrderItemE
  totalItemPrice : ℚ
  tax : List TaxE
  orderItemCount : ℕ
  payment : List PayE
  deriving Repr, DecidableEq, Inhabited

/-- The refund item loop (lines 492-509): items only (voids ignored),
    product ids without the PID prefix, category Refund, and a running
    subtotal of rounded price times quantity. -/
def buildRefundItemsAux (seq ts : String) : List Item → ℕ →
    List OrderItemE × ℚ
  | [], _ => ([], 0)
  | itm :: rest, idx =>
    let price := roundHalfUp2 itm.price
    let pid := seq ++ "_" ++ toString idx
    let res := buildRefundItemsAux seq ts rest (idx + 1)
    (⟨"Added", ts, "Sale", "Refund", pid, itm.name, price, itm.quantity⟩ :: res.1,
     price * (itm.quantity : ℚ) + res.2)

/-- build_refund_payload (lines 489-537): refund total is the raw sum of
    all payment amounts; payments with raw amount exactly zero are
    dropped, the rest keep their unrounded amount, status Accepted and
    zero change. -/
def build_refund_payload (tx : Tx) : Except PyErr RefundPayload :=
  let ts := tx.ts_utc
  let biz := pyReplace (pyTake ts 10) "-" ""
  let res := buildRefundItemsAux tx.seq ts tx.items 1
  let refundTotal := tx.payments.foldl (fun a p => a + p.amount) 0
  let payments := (tx.payments.filter (fun p => p.amount ≠ 0)).map
    (fun p => PayE.mk ts "Accepted" p.amount 0 (map_tender p.tenderType))
  (pyIntOr0 tx.seq).map fun orderNum =>
  { guid := tx.guid, transactionDateTimeStamp := ts,
        transactionType := "New", businessDate := biz,
        locationID := tx.store, locationDesc := tx.location_desc,
        deviceID := tx.terminal,
        deviceDesc := "POS Terminal " ++ tx.terminal,
        employeeID := tx.employee_id, employeeName := tx.employee_name,
        refundTotal := refundTotal,
        orderID := tx.guid, orderNumber := orderNum, orderTime := ts,
        orderState := "Closed", orderItem := res.1,
        totalItemPrice := roundHalfUp2 res.2, tax := [],
        orderItemCount := res.1.length, payment := payments }

/-! ### Dispatcher (dispatcher_worker), lines 541-561 -/

/-- The three endpoint URLs of the configuration block. -/
def CASH_URL : String := "https://data-api-uat.go360iq.com/v1/CashOperations"

/-- Transactions endpoint. -/
def TXN_URL : String := "https://data-api-uat.go360iq.com/v1/Transactions"

/-- Refunds endpoint. -/
def REFUND_URL : String := "https://data-api-uat.go360iq.com/v1/Refunds"

/-- The payload sent by the dispatcher: exactly one of the three
    shapes. -/
inductive Payload where
  | cash (p : CashOpPayload)
  | txn (p : TxnPayload)
  | refund (p : RefundPayload)
  deriving Repr, DecidableEq, Inhabited

/-- The classification and payload build of dispatcher_worker (lines
    548-561): empty items and payments give a CashOperation to the cash
    endpoint; otherwise a declared type equal to refund case-insensitively
    gives a Refund to the refund endpoint; everything else gives the
    sale/void payload to the transaction endpoint.  The build happens
    outside the try block, so a raised exception propagates. -/
def dispatch (tx : Tx) (current_ts : String) :
    Except PyErr (String × Payload) :=
  if tx.items.isEmpty && tx.payments.isEmpty then
    (build_cash_op_payload tx).map (fun p => (CASH_URL, Payload.cash p))
  else if pyLower tx.type == "refund" then
    (build_refund_payload tx).map (fun p => (REFUND_URL, Payload.refund p))
  else
    (build_txn_payload tx current_ts).map (fun p => (TXN_URL, Payload.txn p))

/-- The route dispatcher_worker selects. -/
inductive PRoute
  | cash
  | refund
  | txn
  deriving Repr, DecidableEq

/-- The dispatcher classification (lines 548-553) on the verbatim
    transaction dict the Assembler emits: empty items and payments select
    the cash-operation route without reading the declared type; otherwise
    line 553 calls .lower() on the verbatim type value, raising on a
    non-string.  The selected builder then consumes the string-typed view
    Tx of the transaction (see dispatch). -/
def pclassify (tx : PTx) : Except PyErr PRoute :=
  if tx.items.isEmpty && tx.payments.isEmpty then .ok .cash
  else
    (jStr tx.type).map (fun ty =>
      if pyLower ty == "refund" then .refund else .txn)

/-! ### Port Reader framing (HEADER_PATTERN and read_from_port) -/

/-- HEADER_PATTERN.match(hdr) for the compiled pattern mlen=(\d+)$ (line
    75) applied with re.match at line 220: anchored at the start of the
    (stripped) line, so it succeeds exactly when the whole line is mlen=
    followed by a nonempty digit run, and returns int of the digits.
    Digits are modelled as ASCII. -/
def headerMatch (hdr : String) : Option ℕ :=
  if "mlen=".data.isPrefixOf hdr.data then
    if !(hdr.data.drop 5).isEmpty && (hdr.data.drop 5).all Char.isDigit then
      some (digitsToNat (hdr.data.drop 5))
    else none
  else none

/-- Modelled from the spec: a header matching mlen=<digits> at end of
    line under search semantics, i.e. some position starts mlen= and the
    rest of the line is a nonempty digit run.  This is the acceptance
    predicate the claim describes (text may precede mlen=). -/
def specHeaderMatch (hdr : String) : Bool :=
  (List.range (hdr.data.length + 1)).any (fun i =>
    let t := hdr.data.drop i
    "mlen=".data.isPrefixOf t && !(t.drop 5).isEmpty &&
      (t.drop 5).all Char.isDigit)

/-- On an accepted header read_from_port reads exactly the announced
    number of bytes as the frame payload (line 224): the frame and the
    remaining stream. -/
def readFrame (hdr : String) (stream : List ℕ) :
    Option (List ℕ × List ℕ) :=
  (headerMatch hdr).map (fun n => (stream.take n, stream.drop n))

/-- One Port Reader loop iteration past the blocking reads, on the
    header line and the decoded frame text (lines 219-235): a header
    line that does not match forwards nothing and the loop continues
    with the next line; on a match the frame bytes are read (readFrame)
    and decoded with errors="replace", which cannot raise; a payload
    that is not valid JSON is caught, logged and dropped (lines
    230-234); otherwise the parsed record is forwarded to the parser
    queue.  The function is total: no frame-level input raises or ends
    the reader loop. -/
def readerStep (hdr txt : String) : Option JVal :=
  if (headerMatch hdr).isSome then
    match jparse txt with
    | .ok rec => some rec
    | .error _ => none
  else none

/-! ### Definitions used by the claim statements and witnesses -/

deriving instance DecidableEq for Except

def exOk {α : Type} : Except PyErr α → Bool
  | .ok _ => true
  | .error _ => false

def bufMetaOk : Option Buf → Bool
  | none => true
  | some b =>
    match b.meta with
    | none => true
    | some (.obj _) => true
    | some _ => false

def wfRec (r : JVal) : Bool :=
  match classify r with
  | .notObj => false
  | .start => true
  | .meta v => match v with | .obj _ => true | _ => false
  | .cart v => exOk (decodeCart v)
  | .pay v => exOk (decodePays v)
  | .summ v => exOk (decodeSumm v)
  | .endTx => true
  | .other => true

def entsOk (l : List PEntry) (ev : String) : Bool :=
  l.all (fun e => e.event == ev)

def bufEventsOk : Option Buf → Bool
  | none => true
  | some b => entsOk b.items "add" && entsOk b.voids "void"

def ptxEventsOk (tx : PTx) : Bool :=
  entsOk tx.items "add" && entsOk tx.voids "void"

def pAllVoid (tx : PTx) : Bool :=
  !tx.voids.isEmpty && (tx.items ++ tx.voids).all (fun e => e.event == "void")

def bodyOk (r : JVal) : Bool :=
  match classify r with
  | .meta v => match v with | .obj _ => true | _ => false
  | .cart v => exOk (decodeCart v)
  | .pay v => exOk (decodePays v)
  | .summ v => exOk (decodeSumm v)
  | .other => true
  | _ => false

def stepBody (b : Buf) (r : JVal) : Buf :=
  match classify r with
  | .meta v => { b with meta := some v }
  | .cart v =>
    { b with
      items := b.items ++
        (((decodeCart v).toOption.getD []).filter (fun e => e.event ≠ "void")),
      voids := b.voids ++
        (((decodeCart v).toOption.getD []).filter (fun e => e.event = "void")) }
  | .pay v => { b with payments := b.payments ++ (decodePays v).toOption.getD [] }
  | .summ v =>
    { b with summary_list := ((decodeSumm v).toOption.getD ([], [])).1,
             summary_map := ((decodeSumm v).toOption.getD ([], [])).2 }
  | _ => b

def recAdds (r : JVal) : List PEntry :=
  match classify r with
  | .cart v => ((decodeCart v).toOption.getD []).filter (fun e => e.event ≠ "void")
  | _ => []

def recVoids (r : JVal) : List PEntry :=
  match classify r with
  | .cart v => ((decodeCart v).toOption.getD []).filter (fun e => e.event = "void")
  | _ => []

def recPays (r : JVal) : List PPay :=
  match classify r with
  | .pay v => (decodePays v).toOption.getD []
  | _ => []

def theBracketTx (conv : JVal → String) (body : List JVal) : PTx :=
  ((mkEndTx conv (body.foldl stepBody freshBuf)).toOption).getD default

def erasePayloadClock : Payload → Payload
  | .txn p => .txn { p with transactionDateTimeStamp := "", businessDate := "",
                            orderTime := "" }
  | p => p

def promoKeep (e : Item) : Bool :=
  (strContains (pyUpper e.name) "PROMO" || strContains (pyUpper e.name) "DISCOUNT") &&
  !(e.event == "void")

def mkDiscount (e : Item) : DiscountE :=
  ⟨pyRound2 |e.price * (e.quantity : ℚ)|, e.name, "Promotion"⟩

def txC1 : Tx :=
  { guid := "G", ts_local := "2025-07-16T10:41:00", ts_utc := "2025-07-16T14:41:00",
    store := "1001", terminal := "02", seq := "4215", type := "sale",
    items := [⟨"DM Banana24ct", 0.89, 2, "add"⟩,
              ⟨"B&M PT Casino NICE Uprt", 1.73, 1, "add"⟩,
              ⟨"PROMO EVD Bananas", 0.78, 1, "add"⟩],
    voids := [], payments := [⟨5, "Cash"⟩],
    summary_map := [("SUBTOTAL", 3.51), ("TAX", 0.11), ("TOTAL DUE", 2.84)],
    employee_id := "OP15", employee_name := "OP15", location_desc := "Store 1001" }

def txCex2 : Tx :=
  { guid := "G", ts_local := "L", ts_utc := "U",
    store := "1001", terminal := "02", seq := "1", type := "sale",
    items := [⟨"Widget", 1, 1, "add"⟩],
    voids := [], payments := [], summary_map := [],
    employee_id := "E", employee_name := "E", location_desc := "Store 1001" }

def txCex5 : Tx :=
  { guid := "G", ts_local := "L", ts_utc := "U",
    store := "1001", terminal := "02", seq := "1", type := "sale",
    items := [], voids := [], payments := [⟨1.006, "CASH"⟩],
    summary_map := [("TOTAL DUE", 0.004)],
    employee_id := "E", employee_name := "E", location_desc := "Store 1001" }

def txW5 : Tx :=
  { guid := "G", ts_local := "L", ts_utc := "U",
    store := "1001", terminal := "02", seq := "1", type := "sale",
    items := [], voids := [], payments := [⟨5, "CASH"⟩],
    summary_map := [("TOTAL DUE", 5)],
    employee_id := "E", employee_name := "E", location_desc := "Store 1001" }

def txCex6 : Tx :=
  { guid := "G", ts_local := "L", ts_utc := "U",
    store := "1001", terminal := "02", seq := "1", type := "sale",
    items := [⟨"PROMO X", 0.125, 1, "add"⟩], voids := [], payments := [],
    summary_map := [],
    employee_id := "E", employee_name := "E", location_desc := "Store 1001" }

def txW6 : Tx :=
  { guid := "G", ts_local := "L", ts_utc := "U",
    store := "1001", terminal := "02", seq := "1", type := "sale",
    items := [⟨"PROMO Y", 2, 1, "add"⟩, ⟨"Apple", 3, 1, "add"⟩],
    voids := [], payments := [], summary_map := [],
    employee_id := "E", employee_name := "E", location_desc := "Store 1001" }

def txW7 : Tx :=
  { guid := "G", ts_local := "L", ts_utc := "U",
    store := "1001", terminal := "02", seq := "1", type := "sale",
    items := [], voids := [⟨"X", 1, 1, "void"⟩], payments := [],
    summary_map := [],
    employee_id := "E", employee_name := "E", location_desc := "Store 1001" }

def txW8 : Tx :=
  { guid := "G", ts_local := "L", ts_utc := "U",
    store := "1001", terminal := "02", seq := "7", type := "refund",
    items := [], voids := [], payments := [], summary_map := [],
    employee_id := "E", employee_name := "E", location_desc := "Store 1001" }

def badRecX : JVal := .obj [("cartChangeTrail", .obj [("price", .str "abc")])]

def txBadSeq : Tx :=
  { guid := "G", ts_local := "L", ts_utc := "U",
    store := "1001", terminal := "02", seq := "12.5", type := "sale",
    items := [], voids := [], payments := [], summary_map := [],
    employee_id := "E", employee_name := "E", location_desc := "Store 1001" }

def wRec3 : JVal :=
  .obj [("cartChangeTrail", .arr [.obj [("eventType", .str "changeLineItem"),
    ("itemName", .str "A"), ("price", .num 1), ("quantity", .str "2")]])]

def txBadType : PTx :=
  { guid := "G", ts_local := .str "L", ts_utc := "U",
    store := "1001", terminal := "02", seq := "1", type := .num 1,
    items := [⟨.str "A", 1, 1, "add"⟩], voids := [], payments := [],
    summary_list := [], summary_map := [],
    employee_id := .str "E", employee_name := .str "E",
    location_desc := "Store 1001" }

def ptxW : PTx :=
  { txBadType with type := .str "sale" }

def txSeqW : Tx :=
  { guid := "G", ts_local := "L", ts_utc := "U",
    store := "1001", terminal := "02", seq := "", type := "sale",
    items := [], voids := [], payments := [], summary_map := [],
    employee_id := "E", employee_name := "E", location_desc := "Store 1001" }

def startRecX : JVal := .obj [("CMD", .str "StartTransaction")]

def endRecX : JVal := .obj [("CMD", .str "EndTransaction")]

def bufs0 : String → Option Buf := fun _ => none

def qsX : List (String × JVal) :=
  [("COM4", startRecX), ("COM3", startRecX), ("COM4", badRecX), ("COM3", endRecX)]

def qsW : List (String × JVal) :=
  [("COM4", startRecX), ("COM3", startRecX), ("COM4", wRec3),
   ("COM3", wRec3), ("COM3", endRecX)]

/-! ### Supporting lemmas -/

theorem exmap_ok {α β : Type} {f : α → β} {e : Except PyErr α} {b : β}
    (h : e.map f = .ok b) : ∃ a, e = .ok a ∧ b = f a := by
  cases e with
  | error e => simp [Except.map] at h
  | ok a => simp [Except.map] at h; exact ⟨a, rfl, h.symm⟩

theorem floor_int_add_half (n : ℤ) : ⌊(n : ℚ) + 1 / 2⌋ = n := by
  rw [add_comm, Int.floor_add_int]
  norm_num

theorem centsHU_intCast (n : ℤ) : centsHU ((n : ℚ) / 100) = n := by
  unfold centsHU
  have h100 : ((n : ℚ) / 100) * 100 = (n : ℚ) := div_mul_cancel₀ _ (by norm_num)
  by_cases h : (0 : ℚ) ≤ (n : ℚ) / 100
  · rw [if_pos h, h100, floor_int_add_half]
  · rw [if_neg h]
    have h2 : -((n : ℚ) / 100) * 100 = ((-n : ℤ) : ℚ) := by push_cast; ring
    rw [h2, floor_int_add_half]
    ring

theorem roundHalfUp2_cents (n : ℤ) : roundHalfUp2 ((n : ℚ) / 100) = (n : ℚ) / 100 := by
  rw [roundHalfUp2, centsHU_intCast]

theorem pyRound2_cents (n : ℤ) : pyRound2 ((n : ℚ) / 100) = (n : ℚ) / 100 := by
  unfold pyRound2
  have h100 : ((n : ℚ) / 100) * 100 = (n : ℚ) := div_mul_cancel₀ _ (by norm_num)
  simp only [h100, Int.floor_intCast, sub_self]
  norm_num

theorem roundHalfUp2_eq_self {x : ℚ} (n : ℤ) (h : x = (n : ℚ) / 100) :
    roundHalfUp2 x = x := by rw [h, roundHalfUp2_cents]

theorem pyRound2_eq_self {x : ℚ} (n : ℤ) (h : x = (n : ℚ) / 100) :
    pyRound2 x = x := by rw [h, pyRound2_cents]

theorem build_txn_ok (tx : Tx) (now : String) (n : ℤ)
    (h : pyIntOr0 tx.seq = .ok n) :
    build_txn_payload tx now = .ok
      { guid := tx.guid,
        transactionDateTimeStamp := now,
        transactionType := if !tx.voids.isEmpty then "Update" else "New",
        businessDate := pyReplace (pyTake now 10) "-" "",
        locationID := tx.store, locationDesc := tx.location_desc,
        deviceID := tx.terminal,
        deviceDesc := "POS Terminal " ++ tx.terminal,
        employeeID := tx.employee_id, employeeName := tx.employee_name,
        orderID := tx.guid, orderNumber := n,
        orderTime := now,
        orderState := if (!tx.voids.isEmpty) && allEntriesVoid tx then "Voided" else "Closed",
        orderItem := (buildItemsAux tx.seq tx.ts_utc (tx.items ++ tx.voids) 1).1,
        totalItemPrice := roundHalfUp2 (subtotalOf tx),
        tax := if 0 < roundHalfUp2 (taxAmtOf tx) then [⟨roundHalfUp2 (taxAmtOf tx), "Sales Tax"⟩] else [],
        discount := (buildItemsAux tx.seq tx.ts_utc (tx.items ++ tx.voids) 1).2,
        orderItemCount := (buildItemsAux tx.seq tx.ts_utc (tx.items ++ tx.voids) 1).1.length,
        payment := buildPays tx.ts_utc (computeChange tx) tx.payments 0 } := by
  simp only [build_txn_payload, h, Except.map]

theorem band_true {a b : Bool} (h : (a && b) = true) : a = true ∧ b = true := by
  cases a <;> cases b <;> simp_all

theorem ok_pair_eq {X Y : Type} {a b2 : X} {c t : Y}
    (h : Except.ok (ε := PyErr) (a, c) = Except.ok (b2, t)) : b2 = a ∧ t = c := by
  have h2 := (Except.ok.injEq _ _).mp h
  exact ⟨((Prod.mk.injEq _ _ _ _).mp h2).1.symm, ((Prod.mk.injEq _ _ _ _).mp h2).2.symm⟩

theorem exOk_ex {α : Type} {e : Except PyErr α} (h : exOk e = true) :
    ∃ a, e = Except.ok a := by
  cases e with
  | ok a => exact ⟨a, rfl⟩
  | error e => simp [exOk] at h

theorem metaOr_obj (buf : Buf) (h : bufMetaOk (some buf) = true) :
    ∃ mk, metaOr buf.meta = JVal.obj mk := by
  rw [bufMetaOk] at h
  cases hbm : buf.meta with
  | none => exact ⟨[], rfl⟩
  | some v =>
    rw [hbm] at h
    cases v with
    | obj mk =>
      cases ht : truthy (.obj mk) with
      | true => exact ⟨mk, by rw [metaOr, if_pos ht]⟩
      | false => exact ⟨[], by rw [metaOr, if_neg (by rw [ht]; exact Bool.false_ne_true)]⟩
    | null => simp at h
    | bool b => simp at h
    | num q => simp at h
    | str s => simp at h
    | arr xs => simp at h

theorem mkEndTx_isOk (conv : JVal → String) (buf : Buf)
    (h : bufMetaOk (some buf) = true) : exOk (mkEndTx conv buf) = true := by
  obtain ⟨mk, hm⟩ := metaOr_obj buf h
  simp only [mkEndTx, hm]
  rfl

theorem mkEndTx_fields (conv : JVal → String) (buf : Buf) (tx : PTx)
    (h : mkEndTx conv buf = Except.ok tx) :
    tx.items = buf.items ∧ tx.voids = buf.voids ∧ tx.payments = buf.payments := by
  rw [mkEndTx] at h
  cases hm : metaOr buf.meta with
  | obj mk =>
    rw [hm] at h
    obtain rfl := (Except.ok.injEq _ _).mp h
    exact ⟨rfl, rfl, rfl⟩
  | null => rw [hm] at h; simp at h
  | bool b => rw [hm] at h; simp at h
  | num q => rw [hm] at h; simp at h
  | str s => rw [hm] at h; simp at h
  | arr xs => rw [hm] at h; simp at h

theorem decodeEntry_event : ∀ (c : JVal) (e : PEntry),
    decodeEntry c = Except.ok e → e.event = "add" ∨ e.event = "void" := by
  intro c e h
  cases c with
  | obj ck =>
    simp only [decodeEntry, bind, Except.bind] at h
    cases hp : getNN ck "price" with
    | none =>
      simp only [hp] at h
      cases hq : getNN ck "quantity" with
      | none =>
        simp only [hq] at h
        obtain rfl := (Except.ok.injEq _ _).mp h
        by_cases hv : isStrVal (jget ck "eventType") "voidLineItem" = true
        · right; simp [hv]
        · left; simp [Bool.eq_false_iff.mpr hv]
      | some v =>
        simp only [hq] at h
        cases hqi : pyInt v with
        | error e2 => rw [hqi] at h; simp at h
        | ok qt =>
          rw [hqi] at h
          obtain rfl := (Except.ok.injEq _ _).mp h
          by_cases hv : isStrVal (jget ck "eventType") "voidLineItem" = true
          · right; simp [hv]
          · left; simp [Bool.eq_false_iff.mpr hv]
    | some v =>
      simp only [hp] at h
      cases hpf : pyFloat v with
      | error e2 => rw [hpf] at h; simp at h
      | ok pr =>
        rw [hpf] at h
        cases hq : getNN ck "quantity" with
        | none =>
          simp only [hq] at h
          obtain rfl := (Except.ok.injEq _ _).mp h
          by_cases hv : isStrVal (jget ck "eventType") "voidLineItem" = true
          · right; simp [hv]
          · left; simp [Bool.eq_false_iff.mpr hv]
        | some v2 =>
          simp only [hq] at h
          cases hqi : pyInt v2 with
          | error e2 => rw [hqi] at h; simp at h
          | ok qt =>
            rw [hqi] at h
            obtain rfl := (Except.ok.injEq _ _).mp h
            by_cases hv : isStrVal (jget ck "eventType") "voidLineItem" = true
            · right; simp [hv]
            · left; simp [Bool.eq_false_iff.mpr hv]
  | null => simp [decodeEntry] at h
  | bool b => simp [decodeEntry] at h
  | num q => simp [decodeEntry] at h
  | str s => simp [decodeEntry] at h
  | arr xs => simp [decodeEntry] at h

theorem decodeEntries_events : ∀ (l : List JVal) (es : List PEntry),
    decodeEntries l = Except.ok es →
    ∀ e ∈ es, e.event = "add" ∨ e.event = "void" := by
  intro l
  induction l with
  | nil =>
    intro es h
    simp only [decodeEntries] at h
    obtain rfl := (Except.ok.injEq _ _).mp h
    intro e he
    simp at he
  | cons c t ih =>
    intro es h
    simp only [decodeEntries, bind, Except.bind] at h
    cases hA : decodeEntry c with
    | error e2 => rw [hA] at h; simp at h
    | ok e0 =>
      rw [hA] at h
      cases hB : decodeEntries t with
      | error e2 => rw [hB] at h; simp at h
      | ok es0 =>
        rw [hB] at h
        obtain rfl := (Except.ok.injEq _ _).mp h
        intro e he
        rcases List.mem_cons.mp he with rfl | he2
        · exact decodeEntry_event c e hA
        · exact ih es0 hB e he2

theorem decodeCart_events : ∀ (v : JVal) (es : List PEntry),
    decodeCart v = Except.ok es →
    ∀ e ∈ es, e.event = "add" ∨ e.event = "void" := by
  intro v es h
  simp only [decodeCart, bind, Except.bind] at h
  cases hn : normalizeTrail v with
  | error e2 => rw [hn] at h; simp at h
  | ok l => rw [hn] at h; exact decodeEntries_events l es h

theorem filter_events (es : List PEntry)
    (h : ∀ e ∈ es, e.event = "add" ∨ e.event = "void") :
    entsOk (es.filter (fun e => e.event ≠ "void")) "add" = true ∧
    entsOk (es.filter (fun e => e.event = "void")) "void" = true := by
  constructor
  · rw [entsOk, List.all_eq_true]
    intro e he
    obtain ⟨hmem, hp⟩ := List.mem_filter.mp he
    have hne : e.event ≠ "void" := by simpa using hp
    rcases h e hmem with ha | hv
    · simp [ha]
    · exact absurd hv hne
  · rw [entsOk, List.all_eq_true]
    intro e he
    obtain ⟨hmem, hp⟩ := List.mem_filter.mp he
    have hv : e.event = "void" := by simpa using hp
    simp [hv]

theorem allVoid_iff_lists {α : Type} (items voids : List α) (ev : α → String)
    (hI : items.all (fun e => ev e == "add") = true)
    (hV : voids.all (fun e => ev e == "void") = true) :
    ((!voids.isEmpty) && (items ++ voids).all (fun e => ev e == "void")) = true ↔
      (voids ≠ [] ∧ items = []) := by
  rw [Bool.and_eq_true]
  constructor
  · rintro ⟨hne, hall⟩
    have hv : voids ≠ [] := by
      intro hnil
      rw [hnil] at hne
      simp at hne
    refine ⟨hv, ?_⟩
    cases hi : items with
    | nil => rfl
    | cons a l =>
      exfalso
      rw [List.all_eq_true] at hall
      have ha := hall a (by rw [hi]; simp)
      rw [List.all_eq_true] at hI
      have hb := hI a (by rw [hi]; simp)
      rw [beq_iff_eq] at ha hb
      rw [hb] at ha
      exact absurd ha (by decide)
  · rintro ⟨hv, hi⟩
    refine ⟨?_, ?_⟩
    · cases hvv : voids with
      | nil => exact absurd hvv hv
      | cons a l => rfl
    · rw [hi, List.nil_append]
      exact hV

theorem buildPays_head_change : ∀ (l : List Pay) (ts : String) (ch : ℚ)
    (pe : PayE) (rest : List PayE),
    buildPays ts ch l 0 = pe :: rest → pe.change = ch := by
  intro l
  induction l with
  | nil => intro ts ch pe rest h; simp [buildPays] at h
  | cons p t ih =>
    intro ts ch pe rest h
    rw [buildPays] at h
    split at h
    · exact ih ts ch pe rest h
    · have := (List.cons.injEq _ _ _ _).mp h
      rw [← this.1]
      simp

theorem buildItemsAux_spec : ∀ (l : List Item) (seq ts : String) (idx : ℕ),
    (buildItemsAux seq ts l idx).2 = (l.filter promoKeep).map mkDiscount ∧
    (∀ oi ∈ (buildItemsAux seq ts l idx).1,
      oi.state = "Added" ∨ oi.state = "Voided") ∧
    (∀ oi ∈ (buildItemsAux seq ts l idx).1, oi.state = "Added" →
      strContains (pyUpper oi.name) "PROMO" = false) := by
  intro l
  induction l with
  | nil => intro seq ts idx; simp [buildItemsAux]
  | cons itm t ih =>
    intro seq ts idx
    obtain ⟨ih1, ih2, ih3⟩ := ih seq ts (idx + 1)
    by_cases hk : promoKeep itm = true
    · have hsplit : (strContains (pyUpper itm.name) "PROMO" ||
          strContains (pyUpper itm.name) "DISCOUNT") = true ∧
          (itm.event == "void") = false := by
        simpa [promoKeep, Bool.and_eq_true] using hk
      refine ⟨?_, ?_, ?_⟩
      · rw [buildItemsAux]
        simp only [hsplit.1, hsplit.2, Bool.not_false, Bool.true_and, if_true,
          List.filter_cons, hk, if_pos]
        simp [mkDiscount, ih1]
      · intro oi hoi
        rw [buildItemsAux] at hoi
        simp only [hsplit.1, hsplit.2, Bool.not_false, Bool.true_and, if_true] at hoi
        exact ih2 oi hoi
      · intro oi hoi
        rw [buildItemsAux] at hoi
        simp only [hsplit.1, hsplit.2, Bool.not_false, Bool.true_and, if_true] at hoi
        exact ih3 oi hoi
    · have hk2 : promoKeep itm = false := by
        cases h : promoKeep itm with
        | false => rfl
        | true => exact absurd h hk
      have hcond : ((strContains (pyUpper itm.name) "PROMO" ||
          strContains (pyUpper itm.name) "DISCOUNT") && !(itm.event == "void")) = false :=
        hk2
      refine ⟨?_, ?_, ?_⟩
      · rw [buildItemsAux]
        simp only [hcond, Bool.false_eq_true, if_false, List.filter_cons, hk2]
        simpa using ih1
      · intro oi hoi
        rw [buildItemsAux] at hoi
        simp only [hcond, Bool.false_eq_true, if_false, List.mem_cons] at hoi
        rcases hoi with rfl | hoi
        · by_cases hv : (itm.event == "void") = true
          · right; simp [hv]
          · left; simp [Bool.eq_false_iff.mpr hv]
        · exact ih2 oi hoi
      · intro oi hoi hst
        rw [buildItemsAux] at hoi
        simp only [hcond, Bool.false_eq_true, if_false, List.mem_cons] at hoi
        rcases hoi with rfl | hoi
        · by_cases hv : (itm.event == "void") = true
          · exfalso
            simp [hv] at hst
          · have hv2 : (itm.event == "void") = false := Bool.eq_false_iff.mpr hv
            have : (strContains (pyUpper itm.name) "PROMO" ||
                strContains (pyUpper itm.name) "DISCOUNT") = false := by
              rcases Bool.and_eq_false_iff.mp hcond with h | h
              · exact h
              · rw [hv2] at h
                simp at h
            have hp := (Bool.or_eq_false_iff.mp this).1
            simpa [hv2] using hp
        · exact ih3 oi hoi hst

theorem buildItems_txC1 :
    buildItemsAux "4215" "2025-07-16T14:41:00" (txC1.items ++ txC1.voids) 1 =
      ([⟨"Added", "2025-07-16T14:41:00", "Sale", "General", "PID4215_1",
         "DM Banana24ct", 0.89, 2⟩,
        ⟨"Added", "2025-07-16T14:41:00", "Sale", "General", "PID4215_2",
         "B&M PT Casino NICE Uprt", 1.73, 1⟩],
       [⟨0.78, "PROMO EVD Bananas", "Promotion"⟩]) := by
  have h1 : (strContains (pyUpper "DM Banana24ct") "PROMO" ||
             strContains (pyUpper "DM Banana24ct") "DISCOUNT") = false := by decide
  have h2 : (strContains (pyUpper "B&M PT Casino NICE Uprt") "PROMO" ||
             strContains (pyUpper "B&M PT Casino NICE Uprt") "DISCOUNT") = false := by decide
  have h3 : (strContains (pyUpper "PROMO EVD Bananas") "PROMO" ||
             strContains (pyUpper "PROMO EVD Bananas") "DISCOUNT") = true := by decide
  have h89 : roundHalfUp2 (0.89 : ℚ) = 0.89 := roundHalfUp2_eq_self 89 (by norm_num)
  have h173 : roundHalfUp2 (1.73 : ℚ) = 1.73 := roundHalfUp2_eq_self 173 (by norm_num)
  have hv : pyRound2 |(0.78 : ℚ)| = 0.78 := by
    rw [show |(0.78 : ℚ)| = (0.78 : ℚ) by norm_num]
    exact pyRound2_eq_self 78 (by norm_num)
  have ht1 : toString (1 : ℕ) = "1" := by decide
  have ht2 : toString (2 : ℕ) = "2" := by decide
  simp [txC1, buildItemsAux, h1, h2, h3, h89, h173, hv, ht1, ht2]

theorem computeChange_txC1 : computeChange txC1 = 2.16 := by
  have hp : paidSum txC1 = 5 := by
    simp only [paidSum, txC1, List.filter]
    norm_num
  have ht : totalDueOf txC1 = 2.84 := rfl
  have r1 : roundHalfUp2 (5 : ℚ) = 5 := roundHalfUp2_eq_self 500 (by norm_num)
  have r2 : roundHalfUp2 (2.84 : ℚ) = 2.84 := roundHalfUp2_eq_self 284 (by norm_num)
  have r3 : roundHalfUp2 ((5 : ℚ) - 2.84) = 5 - 2.84 :=
    roundHalfUp2_eq_self 216 (by norm_num)
  rw [computeChange, hp, ht, r1, r2, r3]
  norm_num

theorem buildPays_txC1 :
    buildPays "2025-07-16T14:41:00" (computeChange txC1) txC1.payments 0 =
      [⟨"2025-07-16T14:41:00", "Accepted", 5, 2.16, "Cash"⟩] := by
  have hpay : txC1.payments = [⟨5, "Cash"⟩] := rfl
  have h5 : roundHalfUp2 (5 : ℚ) = 5 := roundHalfUp2_eq_self 500 (by norm_num)
  have hmt : map_tender "Cash" = "Cash" := by decide
  rw [hpay, computeChange_txC1]
  simp [buildPays, h5, hmt]

theorem pstep1_start (conv : JVal → String) (b : Option Buf) (r : JVal)
    (h : classify r = RecClass.start) :
    pstep1 conv b r = Except.ok (some freshBuf, none) := by
  simp [pstep1, h]

theorem pstep1_body (conv : JVal → String) (buf : Buf) (r : JVal)
    (h : bodyOk r = true) :
    pstep1 conv (some buf) r = Except.ok (some (stepBody buf r), none) := by
  rw [bodyOk] at h
  cases hcl : classify r with
  | notObj => rw [hcl] at h; simp at h
  | start => rw [hcl] at h; simp at h
  | endTx => rw [hcl] at h; simp at h
  | meta v => simp [pstep1, stepBody, hcl]
  | cart v =>
    rw [hcl] at h
    obtain ⟨es, hd⟩ := exOk_ex h
    simp [pstep1, stepBody, hcl, hd, Except.map, Except.toOption]
  | pay v =>
    rw [hcl] at h
    obtain ⟨ps, hd⟩ := exOk_ex h
    simp [pstep1, stepBody, hcl, hd, Except.map, Except.toOption]
  | summ v =>
    rw [hcl] at h
    obtain ⟨sl, hd⟩ := exOk_ex h
    simp [pstep1, stepBody, hcl, hd, Except.map, Except.toOption]
  | other => simp [pstep1, stepBody, hcl]

theorem stepBody_lists (buf : Buf) (r : JVal) :
    (stepBody buf r).items = buf.items ++ recAdds r ∧
    (stepBody buf r).voids = buf.voids ++ recVoids r ∧
    (stepBody buf r).payments = buf.payments ++ recPays r := by
  cases hcl : classify r with
  | notObj => simp [stepBody, recAdds, recVoids, recPays, hcl]
  | start => simp [stepBody, recAdds, recVoids, recPays, hcl]
  | endTx => simp [stepBody, recAdds, recVoids, recPays, hcl]
  | meta v => simp [stepBody, recAdds, recVoids, recPays, hcl]
  | cart v => simp [stepBody, recAdds, recVoids, recPays, hcl]
  | pay v => simp [stepBody, recAdds, recVoids, recPays, hcl]
  | summ v => simp [stepBody, recAdds, recVoids, recPays, hcl]
  | other => simp [stepBody, recAdds, recVoids, recPays, hcl]

theorem stepBody_meta (buf : Buf) (r : JVal) (h : bodyOk r = true)
    (hb : bufMetaOk (some buf) = true) :
    bufMetaOk (some (stepBody buf r)) = true := by
  rw [bodyOk] at h
  cases hcl : classify r with
  | notObj => rw [hcl] at h; simp at h
  | start => rw [hcl] at h; simp at h
  | endTx => rw [hcl] at h; simp at h
  | meta v =>
    rw [hcl] at h
    cases v with
    | obj mk => simp [stepBody, hcl, bufMetaOk]
    | null => simp at h
    | bool b0 => simp at h
    | num q => simp at h
    | str s => simp at h
    | arr xs => simp at h
  | cart v => simpa [stepBody, hcl, bufMetaOk] using hb
  | pay v => simpa [stepBody, hcl, bufMetaOk] using hb
  | summ v => simpa [stepBody, hcl, bufMetaOk] using hb
  | other => simpa [stepBody, hcl, bufMetaOk] using hb

theorem foldl_stepBody : ∀ (body : List JVal) (buf : Buf),
    (body.foldl stepBody buf).items = buf.items ++ (body.map recAdds).flatten ∧
    (body.foldl stepBody buf).voids = buf.voids ++ (body.map recVoids).flatten ∧
    (body.foldl stepBody buf).payments = buf.payments ++ (body.map recPays).flatten ∧
    ((∀ r ∈ body, bodyOk r = true) → bufMetaOk (some buf) = true →
      bufMetaOk (some (body.foldl stepBody buf)) = true) := by
  intro body
  induction body with
  | nil => intro buf; simp
  | cons r t ih =>
    intro buf
    obtain ⟨ihI, ihV, ihP, ihM⟩ := ih (stepBody buf r)
    obtain ⟨sI, sV, sP⟩ := stepBody_lists buf r
    refine ⟨?_, ?_, ?_, ?_⟩
    · rw [List.foldl_cons, ihI, sI]
      simp [List.append_assoc]
    · rw [List.foldl_cons, ihV, sV]
      simp [List.append_assoc]
    · rw [List.foldl_cons, ihP, sP]
      simp [List.append_assoc]
    · intro hall hb
      rw [List.foldl_cons]
      exact ihM (fun r2 hr2 => hall r2 (List.mem_cons_of_mem r hr2))
        (stepBody_meta buf r (hall r (List.mem_cons_self r t)) hb)

theorem prun1_body : ∀ (body : List JVal) (conv : JVal → String) (buf : Buf),
    (∀ r ∈ body, bodyOk r = true) →
    prun1 conv (some buf) body = (some (body.foldl stepBody buf), [], none) := by
  intro body
  induction body with
  | nil => intro conv buf h; rfl
  | cons r t ih =>
    intro conv buf h
    rw [prun1, pstep1_body conv buf r (h r (List.mem_cons_self r t))]
    dsimp only
    rw [ih conv (stepBody buf r) (fun r2 hr2 => h r2 (List.mem_cons_of_mem r hr2))]
    simp

theorem prun1_append : ∀ (l1 l2 : List JVal) (conv : JVal → String)
    (b b1 : Option Buf) (txs1 : List PTx),
    prun1 conv b l1 = (b1, txs1, none) →
    prun1 conv b (l1 ++ l2) =
      ((prun1 conv b1 l2).1, txs1 ++ (prun1 conv b1 l2).2.1,
       (prun1 conv b1 l2).2.2) := by
  intro l1
  induction l1 with
  | nil =>
    intro l2 conv b b1 txs1 h
    simp only [prun1] at h
    obtain h1 := congrArg Prod.fst h
    obtain h2 := congrArg (fun x => x.2.1) h
    simp at h1 h2
    subst h1
    subst h2
    simp [List.nil_append]
  | cons r t ih =>
    intro l2 conv b b1 txs1 h
    rw [prun1] at h
    cases hst : pstep1 conv b r with
    | error e =>
      rw [hst] at h
      obtain h3 := congrArg (fun x => x.2.2) h
      simp at h3
    | ok pr =>
      obtain ⟨b2, topt⟩ := pr
      rw [hst] at h
      dsimp only at h
      obtain h1 := congrArg Prod.fst h
      obtain h2 := congrArg (fun x => x.2.1) h
      obtain h3 := congrArg (fun x => x.2.2) h
      dsimp at h1 h2 h3
      have hres : prun1 conv b2 t = ((prun1 conv b2 t).1, (prun1 conv b2 t).2.1, none) := by
        rw [← h3]
      rw [List.cons_append, prun1, hst]
      dsimp only
      rw [ih l2 conv b2 (prun1 conv b2 t).1 (prun1 conv b2 t).2.1 hres]
      rw [← h1, ← h2]
      simp [List.append_assoc]

theorem txsAt_append (p : String) (l1 l2 : List (String × PTx)) :
    txsAt p (l1 ++ l2) = txsAt p l1 ++ txsAt p l2 := by
  simp [txsAt, List.filter_append]

theorem prun_local : ∀ (qs : List (String × JVal)) (conv : JVal → String)
    (bufs : String → Option Buf) (p : String),
    (prun conv bufs qs).2.2 = none →
    (prun conv bufs qs).1 p = (prun1 conv (bufs p) (portRecs p qs)).1 ∧
    txsAt p (prun conv bufs qs).2.1 = (prun1 conv (bufs p) (portRecs p qs)).2.1 ∧
    (prun1 conv (bufs p) (portRecs p qs)).2.2 = none := by
  intro qs
  induction qs with
  | nil =>
    intro conv bufs p h
    exact ⟨rfl, rfl, rfl⟩
  | cons qr rest ih =>
    intro conv bufs p herr
    obtain ⟨q, r⟩ := qr
    rw [prun] at herr ⊢
    cases hst : pstep conv bufs q r with
    | error e =>
      rw [hst] at herr
      simp at herr
    | ok pr =>
      obtain ⟨bufs2, topt⟩ := pr
      rw [hst] at herr
      dsimp only at herr ⊢
      have hst1 : ∃ b2, pstep1 conv (bufs q) r = Except.ok (b2, topt) ∧
          bufs2 = bupdate bufs q b2 := by
        rw [pstep] at hst
        cases hs : pstep1 conv (bufs q) r with
        | error e => rw [hs] at hst; simp [Except.map] at hst
        | ok pr2 =>
          obtain ⟨b2, t2⟩ := pr2
          rw [hs] at hst
          simp only [Except.map] at hst
          obtain h2 := (Except.ok.injEq _ _).mp hst
          exact ⟨b2, by rw [((Prod.mk.injEq _ _ _ _).mp h2).2],
            ((Prod.mk.injEq _ _ _ _).mp h2).1.symm⟩
      obtain ⟨b2, hs1, rfl⟩ := hst1
      obtain ⟨ih1, ih2, ih3⟩ := ih conv (bupdate bufs q b2) p herr
      by_cases hqp : q = p
      · subst hqp
        have hpr : portRecs q ((q, r) :: rest) = r :: portRecs q rest := by
          simp [portRecs]
        have hbu : bupdate bufs q b2 q = b2 := by simp [bupdate]
        rw [hpr, prun1, hs1]
        dsimp only
        rw [hbu] at ih1 ih2 ih3
        refine ⟨ih1, ?_, ih3⟩
        rw [txsAt_append, ih2]
        cases topt with
        | none => simp [txsAt]
        | some tx => simp [txsAt]
      · have hpr : portRecs p ((q, r) :: rest) = portRecs p rest := by
          simp [portRecs, hqp]
        have hbu : bupdate bufs q b2 p = bufs p := by simp [bupdate, Ne.symm hqp]
        rw [hpr]
        rw [hbu] at ih1 ih2 ih3
        refine ⟨ih1, ?_, ih3⟩
        rw [txsAt_append, ih2]
        cases topt with
        | none => simp [txsAt]
        | some tx => simp [txsAt, hqp]

/-! ### The claims -/

/-- C1: end-to-end scenario.  For the transaction with items DM Banana24ct
(0.89 x2), B&M PT Casino NICE Uprt (1.73 x1) and the non-void discount item
PROMO EVD Bananas (0.78 x1), no voids, summary map SUBTOTAL 3.51 / TAX 0.11 /
TOTAL DUE 2.84 and one cash payment of 5.00, build_txn_payload yields
Total.ItemPrice 3.51, a one-entry Tax list with amount 0.11, a one-entry
Discount list with Value 0.78 and Description PROMO EVD Bananas, a one-entry
Payment list with Amount 5.00, Change 2.16, TenderType Cash and Status
Accepted, OrderItemCount 2 and OrderState Closed, for every wall-clock
string. -/
theorem claim_C1 : ∀ (now : String) (p : TxnPayload),
    build_txn_payload txC1 now = Except.ok p →
    p.totalItemPrice = 3.51 ∧ p.tax = [⟨0.11, "Sales Tax"⟩] ∧
    p.discount = [⟨0.78, "PROMO EVD Bananas", "Promotion"⟩] ∧
    p.payment = [⟨"2025-07-16T14:41:00", "Accepted", 5, 2.16, "Cash"⟩] ∧
    p.orderItemCount = 2 ∧ p.orderState = "Closed" := by
  intro now p h
  rw [build_txn_ok txC1 now 4215 rfl] at h
  have hp := (Except.ok.injEq _ _).mp h
  subst hp
  have hsub : subtotalOf txC1 = 3.51 := rfl
  have htax : taxAmtOf txC1 = 0.11 := rfl
  have r351 : roundHalfUp2 (3.51 : ℚ) = 3.51 := roundHalfUp2_eq_self 351 (by norm_num)
  have r11 : roundHalfUp2 (0.11 : ℚ) = 0.11 := roundHalfUp2_eq_self 11 (by norm_num)
  refine ⟨?_, ?_, ?_, ?_, ?_, ?_⟩
  · show roundHalfUp2 (subtotalOf txC1) = 3.51
    rw [hsub, r351]
  · show (if 0 < roundHalfUp2 (taxAmtOf txC1)
        then [(⟨roundHalfUp2 (taxAmtOf txC1), "Sales Tax"⟩ : TaxE)] else []) =
        [(⟨0.11, "Sales Tax"⟩ : TaxE)]
    rw [htax, r11, if_pos (by norm_num : (0 : ℚ) < 0.11)]
  · show (buildItemsAux txC1.seq txC1.ts_utc (txC1.items ++ txC1.voids) 1).2 =
        [(⟨0.78, "PROMO EVD Bananas", "Promotion"⟩ : DiscountE)]
    rw [show txC1.seq = "4215" from rfl, show txC1.ts_utc = "2025-07-16T14:41:00" from rfl,
        buildItems_txC1]
  · show buildPays txC1.ts_utc (computeChange txC1) txC1.payments 0 =
        [(⟨"2025-07-16T14:41:00", "Accepted", 5, 2.16, "Cash"⟩ : PayE)]
    rw [show txC1.ts_utc = "2025-07-16T14:41:00" from rfl, buildPays_txC1]
  · show (buildItemsAux txC1.seq txC1.ts_utc (txC1.items ++ txC1.voids) 1).1.length = 2
    rw [show txC1.seq = "4215" from rfl, show txC1.ts_utc = "2025-07-16T14:41:00" from rfl,
        buildItems_txC1]
    rfl
  · rfl

/-- C1 witness at the concrete scenario transaction. -/
theorem claim_C1_witness :
    (((build_txn_payload txC1 "T").toOption).getD default).totalItemPrice = 3.51 ∧
    (((build_txn_payload txC1 "T").toOption).getD default).tax = [⟨0.11, "Sales Tax"⟩] ∧
    (((build_txn_payload txC1 "T").toOption).getD default).discount =
      [⟨0.78, "PROMO EVD Bananas", "Promotion"⟩] ∧
    (((build_txn_payload txC1 "T").toOption).getD default).payment =
      [⟨"2025-07-16T14:41:00", "Accepted", 5, 2.16, "Cash"⟩] ∧
    (((build_txn_payload txC1 "T").toOption).getD default).orderItemCount = 2 ∧
    (((build_txn_payload txC1 "T").toOption).getD default).orderState = "Closed" :=
  claim_C1 "T" _ (by rw [build_txn_ok txC1 "T" 4215 rfl]; rfl)

/-- C2 (amended): the Transformation Engine is deterministic given the
Transaction and the wall-clock instant read at line 458, and the clock enters
only the TransactionDateTimeStamp, BusinessDate and OrderTime fields of the
sale/void payload: erasing those three fields makes the dispatched result
independent of the clock (the CashOperation and Refund builders never read
it).  The claim as stated, that two evaluations on the same Transaction yield
identical payloads with no wall-clock dependence, is false for the sale/void
builder. -/
theorem claim_C2 : ∀ (tx : Tx) (t1 t2 : String),
    (dispatch tx t1).map (fun q => (q.1, erasePayloadClock q.2)) =
    (dispatch tx t2).map (fun q => (q.1, erasePayloadClock q.2)) := by
  intro tx t1 t2
  by_cases h1 : (tx.items.isEmpty && tx.payments.isEmpty) = true
  · simp [dispatch, h1]
  · by_cases h2 : (pyLower tx.type == "refund") = true
    · simp [dispatch, h1, h2]
    · simp only [dispatch, h1, h2, Bool.false_eq_true, if_false]
      simp only [build_txn_payload]
      cases hpy : pyIntOr0 tx.seq with
      | error e => simp [Except.map]
      | ok n => simp [Except.map, erasePayloadClock]

/-- C2 counterexample: the same standard-sale Transaction dispatched at two
different clock instants produces two different payloads. -/
theorem claim_C2_cex :
    dispatch txCex2 "2024-01-01T00:00:00" ≠ dispatch txCex2 "2024-01-02T00:00:00" := by
  decide

/-- C3 (amended): frame-level malformed input is dropped at the reader,
which never raises, but record-level malformed data crashes the workers.
A header line that does not match forwards nothing, a payload that is not
valid JSON is caught and dropped, the loop continuing either way, and a
parsed record is forwarded.  On any record whose handled branch decodes
cleanly (wfRec) the parser step succeeds and preserves the meta-field
invariant.  The dispatcher classification succeeds whenever items and
payments are both empty or the verbatim declared type is a string, and
the payload build succeeds on every string-typed transaction whose
sequence field is empty or an integer numeral.  The unqualified claim,
that no exception propagates out of the core and no worker loop
terminates, is false: an unparsable numeric field raises out of
parser_worker, a non-string declared type raises at the classification
of line 553, and a non-numeric sequence number raises out of the payload
build, all outside any try block. -/
theorem claim_C3 :
    (∀ (hdr txt : String),
      (headerMatch hdr = none → readerStep hdr txt = none) ∧
      (∀ (e : PyErr), jparse txt = Except.error e → readerStep hdr txt = none) ∧
      (∀ (rec : JVal), (headerMatch hdr).isSome = true →
        jparse txt = Except.ok rec → readerStep hdr txt = some rec)) ∧
    (∀ (conv : JVal → String) (b : Option Buf) (r : JVal),
      wfRec r = true → bufMetaOk b = true →
      exOk (pstep1 conv b r) = true ∧
      (∀ (b2 : Option Buf) (t : Option PTx),
        pstep1 conv b r = Except.ok (b2, t) → bufMetaOk b2 = true)) ∧
    (∀ (p : PTx),
      (p.items.isEmpty && p.payments.isEmpty) = true ∨
        (∃ s, p.type = JVal.str s) →
      exOk (pclassify p) = true) ∧
    (∀ (tx : Tx) (now : String),
      tx.seq = "" ∨ (parseIntPy tx.seq).isSome = true →
      exOk (dispatch tx now) = true) := by
  refine ⟨?_, ?_, ?_, ?_⟩
  · intro hdr txt
    refine ⟨fun h => ?_, fun e he => ?_, fun rec h1 h2 => ?_⟩
    · simp [readerStep, h]
    · by_cases hh : (headerMatch hdr).isSome = true
      · simp [readerStep, hh, he]
      · simp [readerStep, hh]
    · simp [readerStep, h1, h2]
  · intro conv b r hwf hb
    rw [wfRec] at hwf
    cases hcl : classify r with
    | notObj => rw [hcl] at hwf; simp at hwf
    | start =>
      refine ⟨by simp [pstep1, hcl, exOk], fun b2 t h => ?_⟩
      simp only [pstep1, hcl] at h
      obtain ⟨rfl, -⟩ := ok_pair_eq h
      rfl
    | meta v =>
      rw [hcl] at hwf
      cases b with
      | none =>
        refine ⟨by simp [pstep1, hcl, exOk], fun b2 t h => ?_⟩
        simp only [pstep1, hcl] at h
        obtain ⟨rfl, -⟩ := ok_pair_eq h
        rfl
      | some buf =>
        cases v with
        | obj mk =>
          refine ⟨by simp [pstep1, hcl, exOk], fun b2 t h => ?_⟩
          simp only [pstep1, hcl] at h
          obtain ⟨rfl, -⟩ := ok_pair_eq h
          rfl
        | null => simp at hwf
        | bool b0 => simp at hwf
        | num q => simp at hwf
        | str s => simp at hwf
        | arr xs => simp at hwf
    | cart v =>
      rw [hcl] at hwf
      cases b with
      | none =>
        refine ⟨by simp [pstep1, hcl, exOk], fun b2 t h => ?_⟩
        simp only [pstep1, hcl] at h
        obtain ⟨rfl, -⟩ := ok_pair_eq h
        rfl
      | some buf =>
        obtain ⟨es, hd⟩ := exOk_ex hwf
        refine ⟨by simp [pstep1, hcl, hd, Except.map, exOk], fun b2 t h => ?_⟩
        simp only [pstep1, hcl, hd, Except.map] at h
        obtain ⟨rfl, -⟩ := ok_pair_eq h
        simpa [bufMetaOk] using hb
    | pay v =>
      rw [hcl] at hwf
      cases b with
      | none =>
        refine ⟨by simp [pstep1, hcl, exOk], fun b2 t h => ?_⟩
        simp only [pstep1, hcl] at h
        obtain ⟨rfl, -⟩ := ok_pair_eq h
        rfl
      | some buf =>
        obtain ⟨ps, hd⟩ := exOk_ex hwf
        refine ⟨by simp [pstep1, hcl, hd, Except.map, exOk], fun b2 t h => ?_⟩
        simp only [pstep1, hcl, hd, Except.map] at h
        obtain ⟨rfl, -⟩ := ok_pair_eq h
        simpa [bufMetaOk] using hb
    | summ v =>
      rw [hcl] at hwf
      cases b with
      | none =>
        refine ⟨by simp [pstep1, hcl, exOk], fun b2 t h => ?_⟩
        simp only [pstep1, hcl] at h
        obtain ⟨rfl, -⟩ := ok_pair_eq h
        rfl
      | some buf =>
        obtain ⟨sl, hd⟩ := exOk_ex hwf
        refine ⟨by simp [pstep1, hcl, hd, Except.map, exOk], fun b2 t h => ?_⟩
        simp only [pstep1, hcl, hd, Except.map] at h
        obtain ⟨rfl, -⟩ := ok_pair_eq h
        simpa [bufMetaOk] using hb
    | endTx =>
      cases b with
      | none =>
        refine ⟨by simp [pstep1, hcl, exOk], fun b2 t h => ?_⟩
        simp only [pstep1, hcl] at h
        obtain ⟨rfl, -⟩ := ok_pair_eq h
        rfl
      | some buf =>
        obtain ⟨tx0, hd⟩ := exOk_ex (mkEndTx_isOk conv buf hb)
        refine ⟨by simp [pstep1, hcl, hd, Except.map, exOk], fun b2 t h => ?_⟩
        simp only [pstep1, hcl, hd, Except.map] at h
        obtain ⟨rfl, -⟩ := ok_pair_eq h
        rfl
    | other =>
      cases b with
      | none =>
        refine ⟨by simp [pstep1, hcl, exOk], fun b2 t h => ?_⟩
        simp only [pstep1, hcl] at h
        obtain ⟨rfl, -⟩ := ok_pair_eq h
        rfl
      | some buf =>
        refine ⟨by simp [pstep1, hcl, exOk], fun b2 t h => ?_⟩
        simp only [pstep1, hcl] at h
        obtain ⟨rfl, -⟩ := ok_pair_eq h
        exact hb
  · intro p hp
    rw [pclassify]
    rcases hp with hc | ⟨s, hs⟩
    · rw [if_pos hc]; rfl
    · by_cases h1 : (p.items.isEmpty && p.payments.isEmpty) = true
      · rw [if_pos h1]; rfl
      · rw [if_neg h1, hs]
        rfl
  · intro tx now hseq
    have hok : ∃ n, pyIntOr0 tx.seq = Except.ok n := by
      rw [pyIntOr0]
      rcases hseq with h | h
      · exact ⟨0, by rw [if_pos h]⟩
      · obtain ⟨n, hn⟩ := Option.isSome_iff_exists.mp h
        by_cases he : tx.seq = ""
        · exact ⟨0, by rw [if_pos he]⟩
        · exact ⟨n, by rw [if_neg he, hn]⟩
    obtain ⟨n, hn⟩ := hok
    rw [dispatch]
    by_cases h1 : (tx.items.isEmpty && tx.payments.isEmpty) = true
    · simp only [h1, if_true, build_cash_op_payload, hn]
      rfl
    · simp only [h1, Bool.false_eq_true, if_false]
      by_cases h2 : (pyLower tx.type == "refund") = true
      · simp only [h2, if_true, build_refund_payload, hn]
        rfl
      · simp only [h2, Bool.false_eq_true, if_false, build_txn_payload, hn]
        rfl

/-- C3 witness: a non-matching header line is dropped by the reader, a
clean cart record succeeds in the parser step, a verbatim transaction
with a string declared type classifies, and an empty-sequence dispatch
succeeds. -/
theorem claim_C3_witness :
    readerStep "xxmlen=5" "x" = none ∧
    exOk (pstep1 (fun _ => "T") (some freshBuf) wRec3) = true ∧
    exOk (pclassify ptxW) = true ∧
    exOk (dispatch txSeqW "N") = true :=
  ⟨(claim_C3.1 "xxmlen=5" "x").1 rfl,
   (claim_C3.2.1 (fun _ => "T") (some freshBuf) wRec3 rfl rfl).1,
   claim_C3.2.2.1 ptxW (Or.inr ⟨"sale", rfl⟩),
   claim_C3.2.2.2 txSeqW "N" (Or.inl rfl)⟩

/-- C3 counterexample: a cartChangeTrail record with a non-numeric price
raises ValueError out of the parser step; a transaction with sequence
number 12.5 raises ValueError out of the dispatcher payload build; and a
verbatim transaction with an item and a numeric declared type raises at
the classification of line 553. -/
theorem claim_C3_cex :
    pstep1 (fun _ => "T") (some freshBuf) badRecX = Except.error PyErr.valueError ∧
    dispatch txBadSeq "N" = Except.error PyErr.valueError ∧
    pclassify txBadType = Except.error PyErr.typeError := ⟨rfl, rfl, rfl⟩

/-- C4 (amended): for every queue whose records at port p form a valid
Start..End bracket (a StartTransaction record, body records that decode
cleanly without emitting or resetting, an EndTransaction record), and whose
whole run raises no exception, the assembler emits exactly one transaction
for the bracket, with items, voids and payments exactly the decoded entries
of the body records in arrival order, regardless of interleaving with other
ports; and a StartTransaction record always installs a fresh buffer,
discarding any open one.  The error-free proviso is necessary: by
the counterexample, a malformed record of another port terminates the
shared worker before the bracket closes, so the claim as stated (any
interleaving) is false. -/
theorem claim_C4 : ∀ (conv : JVal → String) (qs : List (String × JVal))
    (bufs : String → Option Buf) (p : String) (r0 endR : JVal)
    (body : List JVal),
    portRecs p qs = r0 :: (body ++ [endR]) →
    classify r0 = RecClass.start →
    classify endR = RecClass.endTx →
    (∀ r ∈ body, bodyOk r = true) →
    (prun conv bufs qs).2.2 = none →
    txsAt p (prun conv bufs qs).2.1 = [theBracketTx conv body] ∧
    exOk (mkEndTx conv (body.foldl stepBody freshBuf)) = true ∧
    (theBracketTx conv body).items = (body.map recAdds).flatten ∧
    (theBracketTx conv body).voids = (body.map recVoids).flatten ∧
    (theBracketTx conv body).payments = (body.map recPays).flatten ∧
    (∀ (b : Option Buf) (r : JVal), classify r = RecClass.start →
      pstep1 conv b r = Except.ok (some freshBuf, none)) := by
  intro conv qs bufs p r0 endR body hport hr0 hend hbody herr
  obtain ⟨hI, hV, hP, hM⟩ := foldl_stepBody body freshBuf
  have hmeta : bufMetaOk (some (body.foldl stepBody freshBuf)) = true :=
    hM hbody rfl
  obtain ⟨tx0, hmk⟩ := exOk_ex (mkEndTx_isOk conv _ hmeta)
  have hbt : theBracketTx conv body = tx0 := by
    rw [theBracketTx, hmk]
    rfl
  have hrun1 : prun1 conv (bufs p) (r0 :: (body ++ [endR])) =
      (none, [tx0], none) := by
    rw [prun1, pstep1_start conv (bufs p) r0 hr0]
    dsimp only
    have hb1 := prun1_body body conv freshBuf hbody
    have hend1 : prun1 conv (some (body.foldl stepBody freshBuf)) [endR] =
        (none, [tx0], none) := by
      rw [prun1]
      have hps : pstep1 conv (some (body.foldl stepBody freshBuf)) endR =
          Except.ok (none, some tx0) := by
        simp [pstep1, hend, hmk, Except.map]
      rw [hps]
      rfl
    rw [prun1_append body [endR] conv (some freshBuf)
      (some (body.foldl stepBody freshBuf)) [] hb1, hend1]
    rfl
  obtain ⟨-, htxs, -⟩ := prun_local qs conv bufs p herr
  rw [hport, hrun1] at htxs
  obtain ⟨hfi, hfv, hfp⟩ := mkEndTx_fields conv (body.foldl stepBody freshBuf) tx0 hmk
  refine ⟨by rw [htxs, hbt], by rw [hmk]; rfl, ?_, ?_, ?_,
    fun b r h => pstep1_start conv b r h⟩
  · rw [hbt, hfi, hI]
    rfl
  · rw [hbt, hfv, hV]
    rfl
  · rw [hbt, hfp, hP]
    rfl

/-- C4 witness: a two-port interleaved queue with a one-record body bracket. -/
theorem claim_C4_witness :
    txsAt "COM3" (prun (fun _ => "T") bufs0 qsW).2.1 =
      [theBracketTx (fun _ => "T") [wRec3]] ∧
    exOk (mkEndTx (fun _ => "T") ([wRec3].foldl stepBody freshBuf)) = true ∧
    (theBracketTx (fun _ => "T") [wRec3]).items = ([wRec3].map recAdds).flatten := by
  have h := claim_C4 (fun _ => "T") qsW bufs0 "COM3" startRecX endRecX [wRec3]
    rfl rfl rfl (by decide) rfl
  exact ⟨h.1, h.2.1, h.2.2.1⟩

/-- C4 counterexample: a valid empty bracket on COM3 interleaved with one
malformed COM4 record yields an aborted run and no emitted transaction for
COM3. -/
theorem claim_C4_cex :
    portRecs "COM3" qsX = startRecX :: ([] ++ [endRecX]) ∧
    classify startRecX = RecClass.start ∧
    classify endRecX = RecClass.endTx ∧
    (prun (fun _ => "T") bufs0 qsX).2.2 = some PyErr.valueError ∧
    txsAt "COM3" (prun (fun _ => "T") bufs0 qsX).2.1 = [] :=
  ⟨rfl, rfl, rfl, rfl, rfl⟩

/-- C5 (amended): the computed change equals the rounded payment sum minus
the rounded total due, round(P, 2) - round(T, 2), each operand rounded
before subtracting, rather than round(P - T, 2) as claimed; it is exactly 0
whenever P = T; the payment sum P is accumulated unrounded, rounded once in
the change computation; and the change is attached to the first emitted
payment entry of the payload. -/
theorem claim_C5 : ∀ (tx : Tx),
    computeChange tx = roundHalfUp2 (paidSum tx) - roundHalfUp2 (totalDueOf tx) ∧
    (paidSum tx = totalDueOf tx → computeChange tx = 0) ∧
    (∀ (now : String) (p : TxnPayload) (pe : PayE) (rest : List PayE),
      build_txn_payload tx now = Except.ok p → p.payment = pe :: rest →
      pe.change = computeChange tx) := by
  intro tx
  have key : computeChange tx =
      roundHalfUp2 (paidSum tx) - roundHalfUp2 (totalDueOf tx) := by
    rw [computeChange]
    have hd : roundHalfUp2 (paidSum tx) - roundHalfUp2 (totalDueOf tx) =
        ((centsHU (paidSum tx) - centsHU (totalDueOf tx) : ℤ) : ℚ) / 100 := by
      rw [roundHalfUp2, roundHalfUp2]
      push_cast
      ring
    rw [hd, roundHalfUp2_cents]
  refine ⟨key, fun hpt => ?_, fun now p pe rest hb hp => ?_⟩
  · rw [key, hpt, sub_self]
  · simp only [build_txn_payload] at hb
    obtain ⟨n, hn, hpp⟩ := exmap_ok hb
    subst hpp
    exact buildPays_head_change tx.payments tx.ts_utc (computeChange tx) pe rest hp

/-- C5 witness: payments totalling the total due give change zero. -/
theorem claim_C5_witness : computeChange txW5 = 0 :=
  (claim_C5 txW5).2.1 (by
    have hp : paidSum txW5 = 5 := by
      simp only [paidSum, txW5, List.filter]
      norm_num
    have ht : totalDueOf txW5 = 5 := rfl
    rw [hp, ht])

/-- C5 counterexample: with one payment of 1.006 and TOTAL DUE 0.004 the
code computes change 1.01 while round(P - T, 2) is 1.00. -/
theorem claim_C5_cex :
    computeChange txCex5 = 1.01 ∧
    roundHalfUp2 (paidSum txCex5 - totalDueOf txCex5) = 1 ∧
    (1.01 : ℚ) ≠ 1 := by
  have hp : paidSum txCex5 = 1.006 := by
    simp only [paidSum, txCex5, List.filter]
    norm_num
  have ht : totalDueOf txCex5 = 0.004 := rfl
  have r1 : roundHalfUp2 (1.006 : ℚ) = 1.01 := by
    rw [roundHalfUp2, centsHU, if_pos (by norm_num : (0:ℚ) ≤ 1.006)]
    norm_num
  have r2 : roundHalfUp2 (0.004 : ℚ) = 0 := by
    rw [roundHalfUp2, centsHU, if_pos (by norm_num : (0:ℚ) ≤ 0.004)]
    norm_num
  refine ⟨?_, ?_, by norm_num⟩
  · rw [computeChange, hp, ht, r1, r2]
    rw [show (1.01 : ℚ) - 0 = 1.01 by norm_num]
    exact roundHalfUp2_eq_self 101 (by norm_num)
  · rw [hp, ht, show (1.006 : ℚ) - 0.004 = 1.002 by norm_num]
    rw [roundHalfUp2, centsHU, if_pos (by norm_num : (0:ℚ) ≤ 1.002)]
    norm_num

/-- C6 (amended): every non-void entry whose upper-cased name contains PROMO
or DISCOUNT contributes exactly one Discount entry with Description the item
name and Value the Python builtin round (half to even) of the absolute
price-times-quantity — not half-up rounding, which the claim and the global
spec convention imply — and every OrderItem entry whose name contains PROMO
is in the Voided state, so no non-void promotion item reaches OrderItem. -/
theorem claim_C6 : ∀ (tx : Tx) (now : String) (p : TxnPayload),
    build_txn_payload tx now = Except.ok p →
    p.discount = ((tx.items ++ tx.voids).filter promoKeep).map mkDiscount ∧
    (∀ oi ∈ p.orderItem,
      strContains (pyUpper oi.name) "PROMO" = true → oi.state = "Voided") := by
  intro tx now p h
  simp only [build_txn_payload] at h
  obtain ⟨n, hn, hp⟩ := exmap_ok h
  subst hp
  obtain ⟨h1, h2, h3⟩ := buildItemsAux_spec (tx.items ++ tx.voids) tx.seq tx.ts_utc 1
  refine ⟨h1, fun oi hoi hpromo => ?_⟩
  rcases h2 oi hoi with hst | hst
  · exact absurd hpromo (by simp [h3 oi hoi hst])
  · exact hst

/-- C6 witness at a transaction with one promotion and one plain item. -/
theorem claim_C6_witness :
    (((build_txn_payload txW6 "T").toOption).getD default).discount =
      ((txW6.items ++ txW6.voids).filter promoKeep).map mkDiscount :=
  (claim_C6 txW6 "T" _ (by rw [build_txn_ok txW6 "T" 1 rfl]; rfl)).1

/-- C6 counterexample: a non-void PROMO item priced 0.125 produces a
Discount Value of 0.12 (round half to even), while half-up rounding of
|0.125 * 1| is 0.13. -/
theorem claim_C6_cex :
    (build_txn_payload txCex6 "T").map (fun p => p.discount.map (fun d => d.value)) =
      Except.ok [0.12] ∧
    |(0.125 : ℚ) * ((1 : ℤ) : ℚ)| = 0.125 ∧
    roundHalfUp2 (0.125 : ℚ) = 0.13 ∧
    (0.12 : ℚ) ≠ 0.13 := by
  have habs : |(0.125 : ℚ)| = 0.125 := by norm_num
  have hpr : pyRound2 (0.125 : ℚ) = 0.12 := by
    rw [pyRound2]
    have hf : ⌊(0.125 : ℚ) * 100⌋ = 12 := by norm_num
    simp only [hf]
    norm_num
  refine ⟨?_, by norm_num, ?_, by norm_num⟩
  · have h3 : (strContains (pyUpper "PROMO X") "PROMO" ||
        strContains (pyUpper "PROMO X") "DISCOUNT") = true := by decide
    rw [build_txn_ok txCex6 "T" 1 rfl]
    simp [txCex6, buildItemsAux, h3, Except.map, habs, hpr]
  · rw [roundHalfUp2, centsHU, if_pos (by norm_num : (0:ℚ) ≤ 0.125)]
    norm_num

/-- C7: if voids is non-empty and every entry of items and voids together is
a void, OrderState is Voided and TransactionType is Update; if voids is
non-empty but not all entries are voids, OrderState is Closed and
TransactionType is Update; if voids is empty, TransactionType is New. -/
theorem claim_C7 : ∀ (tx : Tx) (now : String) (p : TxnPayload),
    build_txn_payload tx now = Except.ok p →
    ((tx.voids ≠ [] ∧ allEntriesVoid tx = true) →
        p.orderState = "Voided" ∧ p.transactionType = "Update") ∧
    ((tx.voids ≠ [] ∧ allEntriesVoid tx = false) →
        p.orderState = "Closed" ∧ p.transactionType = "Update") ∧
    (tx.voids = [] → p.transactionType = "New") := by
  intro tx now p h
  simp only [build_txn_payload] at h
  obtain ⟨n, hn, hp⟩ := exmap_ok h
  subst hp
  have hne : ∀ (l : List Item), l ≠ [] → l.isEmpty = false := by
    intro l hl
    cases l with
    | nil => exact absurd rfl hl
    | cons a t => rfl
  refine ⟨fun hc => ?_, fun hc => ?_, fun h1 => ?_⟩
  · obtain ⟨h1, h2⟩ := hc
    simp [hne _ h1, h2]
  · obtain ⟨h1, h2⟩ := hc
    simp [hne _ h1, h2]
  · simp [h1]

/-- C7 witness at a full-void transaction. -/
theorem claim_C7_witness :
    (((build_txn_payload txW7 "T").toOption).getD default).orderState = "Voided" ∧
    (((build_txn_payload txW7 "T").toOption).getD default).transactionType = "Update" :=
  (claim_C7 txW7 "T" _ (by rfl)).1 ⟨by decide, by decide⟩

/-- C8: a Transaction with empty items and empty payments always yields a
CashOperation payload sent to the cash endpoint — the first branch carries
no hypothesis on the declared type, so this holds even when the type is
refund — otherwise a declared type equal to refund case-insensitively yields
a Refund payload to the refund endpoint, and every remaining Transaction the
sale/void payload to the transaction endpoint; the three endpoints are
pairwise distinct. -/
theorem claim_C8 : ∀ (tx : Tx) (now : String),
    ((tx.items = [] ∧ tx.payments = []) →
      dispatch tx now = (build_cash_op_payload tx).map
        (fun p => (CASH_URL, Payload.cash p))) ∧
    (¬(tx.items = [] ∧ tx.payments = []) → pyLower tx.type = "refund" →
      dispatch tx now = (build_refund_payload tx).map
        (fun p => (REFUND_URL, Payload.refund p))) ∧
    (¬(tx.items = [] ∧ tx.payments = []) → pyLower tx.type ≠ "refund" →
      dispatch tx now = (build_txn_payload tx now).map
        (fun p => (TXN_URL, Payload.txn p))) ∧
    CASH_URL ≠ TXN_URL ∧ CASH_URL ≠ REFUND_URL ∧ TXN_URL ≠ REFUND_URL := by
  intro tx now
  refine ⟨fun hc => ?_, fun hc hr => ?_, fun hc hr => ?_, by decide, by decide, by decide⟩
  · obtain ⟨h1, h2⟩ := hc
    simp [dispatch, h1, h2]
  · have hb : (tx.items.isEmpty && tx.payments.isEmpty) = false := by
      rcases not_and_or.mp hc with h | h
      · cases hi : tx.items with
        | nil => exact absurd hi h
        | cons a l => rfl
      · cases hp : tx.payments with
        | nil => exact absurd hp h
        | cons a l => simp [hp]
    simp [dispatch, hb, hr]
  · have hb : (tx.items.isEmpty && tx.payments.isEmpty) = false := by
      rcases not_and_or.mp hc with h | h
      · cases hi : tx.items with
        | nil => exact absurd hi h
        | cons a l => rfl
      · cases hp : tx.payments with
        | nil => exact absurd hp h
        | cons a l => simp [hp]
    have hr2 : (pyLower tx.type == "refund") = false := by
      simpa using hr
    simp [dispatch, hb, hr2]

/-- C8 witness: empty items and payments with declared type refund route to the cash endpoint. -/
theorem claim_C8_witness :
    dispatch txW8 "N" = (build_cash_op_payload txW8).map
      (fun p => (CASH_URL, Payload.cash p)) :=
  (claim_C8 txW8 "N").1 ⟨rfl, rfl⟩

/-- C9 (amended): HEADER_PATTERN is applied with re.match, so acceptance is
anchored at the start of the stripped line: every accepted header matches
the end-of-line pattern of the claim, the announced byte count is read
exactly on acceptance — but a line with text preceding mlen= is rejected,
contrary to the claim, as the counterexample shows. -/
theorem claim_C9 : ∀ (hdr : String) (n : ℕ) (stream : List ℕ),
    headerMatch hdr = some n →
    specHeaderMatch hdr = true ∧
    readFrame hdr stream = some (stream.take n, stream.drop n) ∧
    (n ≤ stream.length → (stream.take n).length = n) := by
  intro hdr n stream h
  refine ⟨?_, ?_, fun hle => ?_⟩
  · rw [headerMatch] at h
    split at h
    · rename_i hpre
      split at h
      · rename_i hds
        have hds2 : (!(hdr.data.drop 5).isEmpty) = true ∧
            ((hdr.data.drop 5).all Char.isDigit) = true := by
          simpa [Bool.and_eq_true] using hds
        rw [specHeaderMatch, List.any_eq_true]
        refine ⟨0, by simp, ?_⟩
        show ("mlen=".data.isPrefixOf (hdr.data.drop 0) &&
              !((hdr.data.drop 0).drop 5).isEmpty &&
              ((hdr.data.drop 0).drop 5).all Char.isDigit) = true
        rw [List.drop_zero, hpre, hds2.1, hds2.2]
        rfl
      · exact absurd h (by simp)
    · exact absurd h (by simp)
  · rw [readFrame, h]
    rfl
  · simp [List.length_take]
    omega

/-- C9 witness at the header mlen=3 over a four-byte stream. -/
theorem claim_C9_witness :
    specHeaderMatch "mlen=3" = true ∧
    readFrame "mlen=3" [10, 20, 30, 40] = some ([10, 20, 30], [40]) ∧
    (3 ≤ ([10, 20, 30, 40] : List ℕ).length → (([10, 20, 30, 40] : List ℕ).take 3).length = 3) :=
  claim_C9 "mlen=3" 3 [10, 20, 30, 40] rfl

/-- C9 counterexample: the line xxmlen=5 matches mlen=<digits> at end of
line yet is rejected by the start-anchored match of the code. -/
theorem claim_C9_cex :
    specHeaderMatch "xxmlen=5" = true ∧ headerMatch "xxmlen=5" = none :=
  ⟨by decide, by decide⟩

/-- C10: every parser transition preserves the invariant that buffer items
all carry event add and buffer voids all carry event void; every emitted
transaction satisfies it as well, and under it the full-void condition of
line 455 — voids non-empty and every item and void entry a void — holds
exactly when voids is non-empty and items is empty, both for parser
transactions and for the builder-level transaction type. -/
theorem claim_C10 : ∀ (conv : JVal → String) (b : Option Buf) (r : JVal)
    (b2 : Option Buf) (t : Option PTx),
    pstep1 conv b r = Except.ok (b2, t) → bufEventsOk b = true →
    bufEventsOk b2 = true ∧
    (∀ tx, t = some tx → ptxEventsOk tx = true ∧
      (pAllVoid tx = true ↔ (tx.voids ≠ [] ∧ tx.items = []))) ∧
    (∀ (ltx : Tx), ltx.items.all (fun e => e.event == "add") = true →
      ltx.voids.all (fun e => e.event == "void") = true →
      (((!ltx.voids.isEmpty) && allEntriesVoid ltx) = true ↔
        (ltx.voids ≠ [] ∧ ltx.items = []))) := by
  have lastPart : ∀ (ltx : Tx), ltx.items.all (fun e => e.event == "add") = true →
      ltx.voids.all (fun e => e.event == "void") = true →
      (((!ltx.voids.isEmpty) && allEntriesVoid ltx) = true ↔
        (ltx.voids ≠ [] ∧ ltx.items = [])) := by
    intro ltx hI hV
    rw [allEntriesVoid]
    exact allVoid_iff_lists ltx.items ltx.voids Item.event hI hV
  intro conv b r b2 t h hb
  cases hcl : classify r with
  | notObj => simp only [pstep1, hcl] at h; simp at h
  | start =>
    simp only [pstep1, hcl] at h
    obtain ⟨rfl, rfl⟩ := ok_pair_eq h
    exact ⟨rfl, fun tx htx => by simp at htx, lastPart⟩
  | meta v =>
    cases b with
    | none =>
      simp only [pstep1, hcl] at h
      obtain ⟨rfl, rfl⟩ := ok_pair_eq h
      exact ⟨rfl, fun tx htx => by simp at htx, lastPart⟩
    | some buf =>
      simp only [pstep1, hcl] at h
      obtain ⟨rfl, rfl⟩ := ok_pair_eq h
      refine ⟨?_, fun tx htx => by simp at htx, lastPart⟩
      simpa [bufEventsOk] using hb
  | cart v =>
    cases b with
    | none =>
      simp only [pstep1, hcl] at h
      obtain ⟨rfl, rfl⟩ := ok_pair_eq h
      exact ⟨rfl, fun tx htx => by simp at htx, lastPart⟩
    | some buf =>
      simp only [pstep1, hcl] at h
      cases hd : decodeCart v with
      | error e2 => rw [hd] at h; simp [Except.map] at h
      | ok es =>
        rw [hd] at h
        simp only [Except.map] at h
        obtain ⟨rfl, rfl⟩ := ok_pair_eq h
        refine ⟨?_, fun tx htx => by simp at htx, lastPart⟩
        have hev := decodeCart_events v es hd
        obtain ⟨hfa, hfv⟩ := filter_events es hev
        rw [bufEventsOk] at hb ⊢
        obtain ⟨hbi, hbv⟩ := band_true hb
        rw [Bool.and_eq_true]
        constructor
        · rw [entsOk, List.all_append]
          rw [entsOk] at hbi hfa
          rw [hbi, hfa]
          rfl
        · rw [entsOk, List.all_append]
          rw [entsOk] at hbv hfv
          rw [hbv, hfv]
          rfl
  | pay v =>
    cases b with
    | none =>
      simp only [pstep1, hcl] at h
      obtain ⟨rfl, rfl⟩ := ok_pair_eq h
      exact ⟨rfl, fun tx htx => by simp at htx, lastPart⟩
    | some buf =>
      simp only [pstep1, hcl] at h
      cases hd : decodePays v with
      | error e2 => rw [hd] at h; simp [Except.map] at h
      | ok ps =>
        rw [hd] at h
        simp only [Except.map] at h
        obtain ⟨rfl, rfl⟩ := ok_pair_eq h
        refine ⟨?_, fun tx htx => by simp at htx, lastPart⟩
        simpa [bufEventsOk] using hb
  | summ v =>
    cases b with
    | none =>
      simp only [pstep1, hcl] at h
      obtain ⟨rfl, rfl⟩ := ok_pair_eq h
      exact ⟨rfl, fun tx htx => by simp at htx, lastPart⟩
    | some buf =>
      simp only [pstep1, hcl] at h
      cases hd : decodeSumm v with
      | error e2 => rw [hd] at h; simp [Except.map] at h
      | ok sl =>
        rw [hd] at h
        simp only [Except.map] at h
        obtain ⟨rfl, rfl⟩ := ok_pair_eq h
        refine ⟨?_, fun tx htx => by simp at htx, lastPart⟩
        simpa [bufEventsOk] using hb
  | endTx =>
    cases b with
    | none =>
      simp only [pstep1, hcl] at h
      obtain ⟨rfl, rfl⟩ := ok_pair_eq h
      exact ⟨rfl, fun tx htx => by simp at htx, lastPart⟩
    | some buf =>
      simp only [pstep1, hcl] at h
      cases hd : mkEndTx conv buf with
      | error e2 => rw [hd] at h; simp [Except.map] at h
      | ok tx0 =>
        rw [hd] at h
        simp only [Except.map] at h
        obtain ⟨rfl, rfl⟩ := ok_pair_eq h
        refine ⟨rfl, fun tx htx => ?_, lastPart⟩
        have htx2 : tx = tx0 := ((Option.some.injEq _ _).mp htx).symm
        rw [htx2]
        obtain ⟨hitems, hvoids, -⟩ := mkEndTx_fields conv buf tx0 hd
        rw [bufEventsOk] at hb
        obtain ⟨hbi, hbv⟩ := band_true hb
        rw [← hitems] at hbi
        rw [← hvoids] at hbv
        refine ⟨?_, ?_⟩
        · rw [ptxEventsOk, Bool.and_eq_true]
          exact ⟨hbi, hbv⟩
        · rw [pAllVoid]
          exact allVoid_iff_lists tx0.items tx0.voids PEntry.event hbi hbv
  | other =>
    cases b with
    | none =>
      simp only [pstep1, hcl] at h
      obtain ⟨rfl, rfl⟩ := ok_pair_eq h
      exact ⟨rfl, fun tx htx => by simp at htx, lastPart⟩
    | some buf =>
      simp only [pstep1, hcl] at h
      obtain ⟨rfl, rfl⟩ := ok_pair_eq h
      exact ⟨hb, fun tx htx => by simp at htx, lastPart⟩

/-- C10 witness at a clean cart record applied to a fresh buffer. -/
theorem claim_C10_witness :
    bufEventsOk (((pstep1 (fun _ => "T") (some freshBuf) wRec3).toOption.getD
      default).1) = true :=
  (claim_C10 (fun _ => "T") (some freshBuf) wRec3 _ _ rfl rfl).1
